import Mathlib

/-!
# kt::type_list_t : a shallow embedding of `include/kt/type_list.hpp`

A type list `type_list_t<TS...>` is embedded as the list of its type descriptors.
Every member function of the header is a compile-time computation on the pack `TS...`;
it is embedded as a function on lists.  A call that the compiler refuses (a failed
`static_assert`, a use of an undefined primary template) is embedded as `none`.

Modelling conventions

* `size_t` is the 64 bit unsigned word; the subtraction `E - 1` and the addition `S + 1`
  that the header performs on template arguments are taken modulo `2 ^ 64`.
* The sums of `index_of` are taken in `size_t`; the sum of `count_of` adds the `int`
  values 0 and 1 and is bounded by the pack size, it is taken in the naturals.
* A metafunction `F` used as `typename F<T>::type` is a total function on descriptors,
  one used as `F<T>::value` is a total Boolean function on descriptors.
* Descriptors are the possibly cv-qualified, possibly reference-qualified object types
  over `void`, a few arithmetic types, the class `detail::ignore_t` and further
  (complete, non-abstract) class types without an overloaded comma operator.
  Array and function types are outside the model.
-/

namespace kt

/-! ## Type descriptors -/

/-- Unqualified types: `void`, arithmetic types, and class types. -/
inductive BaseType where
  | void_
  | int_
  | double_
  | float_
  | short_
  | long_
  | ignore_t
  | class_ (id : Nat)
  deriving DecidableEq, Repr

/-- Class types are the sentinel `detail::ignore_t` and the types `class_ n`. -/
def BaseType.is_class : BaseType → Bool
  | BaseType.ignore_t => true
  | BaseType.class_ _ => true
  | _ => false

/-- Reference qualifier of a descriptor: `T`, `T&` or `T&&`. -/
inductive RefQual where
  | none
  | lvalue
  | rvalue
  deriving DecidableEq, Repr

/-- A type descriptor `cv base ref`; the cv-qualifiers qualify the referred-to type. -/
structure Descriptor where
  base : BaseType
  is_const : Bool
  is_volatile : Bool
  ref : RefQual
  deriving DecidableEq, Repr

/-- The unqualified, non-reference descriptor of a base type. -/
def plain (b : BaseType) : Descriptor := ⟨b, false, false, RefQual.none⟩

/-- The descriptor `void`. -/
def void_t : Descriptor := plain BaseType.void_
/-- The descriptor `int`. -/
def int_t : Descriptor := plain BaseType.int_
/-- The descriptor `double`. -/
def double_t : Descriptor := plain BaseType.double_
/-- The descriptor `float`. -/
def float_t : Descriptor := plain BaseType.float_
/-- The descriptor `short`. -/
def short_t : Descriptor := plain BaseType.short_
/-- The descriptor `long`. -/
def long_t : Descriptor := plain BaseType.long_

/-- The metafunction `std::remove_reference`. -/
def remove_reference (T : Descriptor) : Descriptor := { T with ref := RefQual.none }

/-- The metafunction `std::remove_cv`: strips the top-level cv-qualifiers; a reference
type has none. -/
def remove_cv (T : Descriptor) : Descriptor :=
  match T.ref with
  | RefQual.none => { T with is_const := false, is_volatile := false }
  | _ => T

/-- The metafunction `kt::remove_cvref`:
`std::remove_cv_t<std::remove_reference_t<T>>`. -/
def remove_cvref (T : Descriptor) : Descriptor := remove_cv (remove_reference T)

/-- The metafunction `std::add_const` (`typename F<T>::type`): a reference type is
left as it is. -/
def add_const (T : Descriptor) : Descriptor :=
  match T.ref with
  | RefQual.none => { T with is_const := true }
  | _ => T

/-- The predicate `std::is_const` (`F<T>::value`): top-level const; false for references. -/
def is_const (T : Descriptor) : Bool :=
  match T.ref with
  | RefQual.none => T.is_const
  | _ => false

/-- The predicate `std::is_same_v`. -/
def is_same (T U : Descriptor) : Bool := decide (T = U)

/-! ## Indices -/

/-- Number of values of `size_t`. -/
def SIZE_MOD : Nat := 2 ^ 64

/-- The constant `kt::npos`: `std::numeric_limits<size_t>::max()`. -/
def npos : Nat := SIZE_MOD - 1

/-- Unsigned subtraction on `size_t`. -/
def size_sub (a b : Nat) : Nat := (a % SIZE_MOD + SIZE_MOD - b % SIZE_MOD) % SIZE_MOD

/-- Unsigned addition on `size_t`. -/
def size_add (a b : Nat) : Nat := (a + b) % SIZE_MOD

/-- The type list `type_list_t<TS...>` is the list of the descriptors `TS...`. -/
abbrev type_list_t := List Descriptor

namespace detail

/-- The sentinel `detail::ignore_t`. -/
def ignore_t : Descriptor := plain BaseType.ignore_t

/-- The test `std::is_same_v<remove_cvref_t<T>, detail::ignore_t>` of `operator+`,
`append` and `prepend`. -/
def is_ignore (T : Descriptor) : Bool := is_same (remove_cvref T) ignore_t

/-- Value category of an expression. -/
inductive ValueCategory where
  | prvalue
  | lvalue
  | xvalue
  deriving DecidableEq, Repr

/-- The (non-reference) type and the value category of an expression. -/
structure Expr where
  type : Descriptor
  category : ValueCategory
  deriving DecidableEq, Repr

/-- The call expression `declfwd<T>()` of `template<typename T> constexpr T declfwd();`.
A call to a function returning `T&` is an lvalue, one returning `T&&` an xvalue, any
other a prvalue; a prvalue of cv-qualified non-class type has its type adjusted to the
unqualified type. -/
def declfwd (T : Descriptor) : Expr :=
  match T.ref with
  | RefQual.lvalue => ⟨remove_reference T, ValueCategory.lvalue⟩
  | RefQual.rvalue => ⟨remove_reference T, ValueCategory.xvalue⟩
  | RefQual.none =>
    if T.base.is_class then ⟨T, ValueCategory.prvalue⟩
    else ⟨{ T with is_const := false, is_volatile := false }, ValueCategory.prvalue⟩

/-- The built-in comma operator: type and value category of the right operand. -/
def comma (_a b : Expr) : Expr := b

/-- The expression `void()`, the value of a unary fold over `,` of an empty pack. -/
def void_expr : Expr := ⟨void_t, ValueCategory.prvalue⟩

/-- The unary right fold `(E , ...)` over the comma operator. -/
def fold_comma : List Expr → Expr
  | [] => void_expr
  | [e] => e
  | e :: es => comma e (fold_comma es)

/-- The specifier `decltype(e)` for an expression that is not an id-expression:
`T&` for an lvalue, `T&&` for an xvalue, `T` for a prvalue. -/
def decltype (e : Expr) : Descriptor :=
  match e.category with
  | ValueCategory.prvalue => e.type
  | ValueCategory.lvalue => { e.type with ref := RefQual.lvalue }
  | ValueCategory.xvalue => { e.type with ref := RefQual.rvalue }

/-- The template `type_list_first_type<TS...>::type`: the primary template is declared
and never defined, the only specialisation needs a first type. -/
def type_list_first_type : List Descriptor → Option Descriptor
  | [] => none
  | T :: _ => some T

/-- The template `type_list_element<I, TS...>::type`: `fnc` skips `I` pointer arguments
and deduces `T` from the next one; there is no viable call when none is left. -/
def type_list_element : Nat → List Descriptor → Option Descriptor
  | _, [] => none
  | 0, T :: _ => some T
  | I + 1, _ :: TS => type_list_element I TS

/-- The pack `TS...` expanded in step with `IS...` counted from `n`. -/
def with_iseq_from (n : Nat) : List Descriptor → List (Descriptor × Nat)
  | [] => []
  | T :: TS => (T, n) :: with_iseq_from (n + 1) TS

/-- The pack `TS...` expanded in step with `IS...` of
`std::make_index_sequence<TL().size()>`. -/
def with_iseq (TS : List Descriptor) : List (Descriptor × Nat) := with_iseq_from 0 TS

end detail

/-! ## Members of `type_list_t` -/

/-- The private member `index_in_range`: `I >= 0 && I < sizeof...(TS)`. -/
def index_in_range (TS : type_list_t) (I : Nat) : Bool :=
  decide (I ≥ 0) && decide (I < TS.length)

/-- The member `size`. -/
def size (TS : type_list_t) : Nat := TS.length

/-- The member `empty`. -/
def empty (TS : type_list_t) : Bool := decide (TS.length = 0)

/-- The member `front`: `tag_t<detail::type_list_first_type_t<TS...>>`. -/
def front (TS : type_list_t) : Option Descriptor := detail.type_list_first_type TS

/-- The member `back`: `tag_t<decltype((detail::declfwd<TS>(), ...))>`. -/
def back (TS : type_list_t) : Option Descriptor :=
  some (detail.decltype (detail.fold_comma (TS.map detail.declfwd)))

/-- The member `at`: a `static_assert` on `index_in_range`, then
`tag_t<detail::type_list_element_t<I, TS...>>`. -/
def at_ (TS : type_list_t) (I : Nat) : Option Descriptor :=
  if index_in_range TS I then detail.type_list_element I TS else none

/-- The member `apply(func_t<F>)`: the pack expansion
`type_list_t<typename F<TS>::type...>`. -/
def apply : type_list_t → (Descriptor → Descriptor) → type_list_t
  | [], _ => []
  | T :: TS, F => F T :: apply TS F

/-- The member `operator+(tag_t<T>)`. -/
def operator_plus (TS : type_list_t) (T : Descriptor) : type_list_t :=
  if detail.is_ignore T then TS else TS ++ [T]

/-- The member `append(tag_t<T>)`. -/
def append (TS : type_list_t) (T : Descriptor) : type_list_t :=
  if detail.is_ignore T then TS else TS ++ [T]

/-- The member `prepend(tag_t<T>)`. -/
def prepend (TS : type_list_t) (T : Descriptor) : type_list_t :=
  if detail.is_ignore T then TS else T :: TS

/-- The member `contains`: the fold `(std::is_same_v<T, TS> || ... || false)`. -/
def contains (TS : type_list_t) (T : Descriptor) : Bool :=
  TS.foldr (fun U acc => is_same T U || acc) false

namespace detail

/-- The binary left fold `(type_list_t<>() + ... + tags)`. -/
def fold_plus (tags : List Descriptor) : type_list_t :=
  tags.foldl operator_plus []

/-- The specialisation for `type_list_index_of_tag`:
`((std::is_same_v<TS, T> ? IS : 0) + ... + 0)` in `size_t`. -/
def index_of_value (T : Descriptor) (TS : type_list_t) : Nat :=
  (with_iseq TS).foldr (fun p acc => size_add (if is_same p.1 T then p.2 else 0) acc) 0

/-- The variable template `type_list_count_of_v`:
`((std::is_same_v<TS, T> ? 1 : 0) + ... + 0)`. -/
def type_list_count_of_v (T : Descriptor) (TS : type_list_t) : Nat :=
  (with_iseq TS).foldr (fun p acc => (if is_same p.1 T then 1 else 0) + acc) 0

/-- The variable template `type_list_index_of_v`:
`TL().contains(tag<T>) ? type_list_with_iseq<...>::value : npos`. -/
def type_list_index_of_v (T : Descriptor) (TS : type_list_t) : Nat :=
  if contains TS T then index_of_value T TS else npos

/-- The alias `type_list_remove_t`: the fold over
`std::conditional_t<std::is_same_v<T, TS>, tag_t<ignore_t>, tag_t<TS>>`. -/
def type_list_remove_t (T : Descriptor) (TS : type_list_t) : type_list_t :=
  fold_plus ((with_iseq TS).map (fun p => if is_same T p.1 then ignore_t else p.1))

/-- The alias `type_list_remove_index_t`: the fold over
`std::conditional_t<(IS >= S && IS < E), tag_t<ignore_t>, tag_t<TS>>`. -/
def type_list_remove_index_t (S E : Nat) (TS : type_list_t) : type_list_t :=
  fold_plus ((with_iseq TS).map
    (fun p => if decide (p.2 ≥ S) && decide (p.2 < E) then ignore_t else p.1))

/-- The alias `type_list_apply_index_t`: the fold over
`std::conditional_t<I == IS, tag_t<typename F<TS>::type>, tag_t<TS>>`. -/
def type_list_apply_index_t (I : Nat) (F : Descriptor → Descriptor) (TS : type_list_t) :
    type_list_t :=
  fold_plus ((with_iseq TS).map (fun p => if decide (I = p.2) then F p.1 else p.1))

/-- The alias `type_list_apply_range_t`: the fold over
`std::conditional_t<(IS >= S && IS < E), tag_t<typename F<TS>::type>, tag_t<TS>>`. -/
def type_list_apply_range_t (S E : Nat) (F : Descriptor → Descriptor) (TS : type_list_t) :
    type_list_t :=
  fold_plus ((with_iseq TS).map
    (fun p => if decide (p.2 ≥ S) && decide (p.2 < E) then F p.1 else p.1))

/-- The alias `type_list_filter_t`: the fold over
`std::conditional_t<F<TS>::value, tag_t<TS>, tag_t<ignore_t>>`. -/
def type_list_filter_t (F : Descriptor → Bool) (TS : type_list_t) : type_list_t :=
  fold_plus ((with_iseq TS).map (fun p => if F p.1 then p.1 else ignore_t))

/-- The alias `type_list_filter_range_t`: the fold over
`std::conditional<F<TS>::value, tag_t<TS>,
   std::conditional_t<(IS >= S && IS < E), tag_t<ignore_t>, tag_t<TS>>>::type`. -/
def type_list_filter_range_t (S E : Nat) (F : Descriptor → Bool) (TS : type_list_t) :
    type_list_t :=
  fold_plus ((with_iseq TS).map
    (fun p => if F p.1 then p.1
      else if decide (p.2 ≥ S) && decide (p.2 < E) then ignore_t else p.1))

end detail

/-- The `static_assert` shared by `apply_range`, `filter_range` and `remove(index)`:
`index_in_range(index<S>) && index_in_range(index<E - 1>)`. -/
def range_assert (TS : type_list_t) (S E : Nat) : Bool :=
  index_in_range TS S && index_in_range TS (size_sub E 1)

/-- The member `apply(index_t<I>, func_t<F>)`. -/
def apply_index (TS : type_list_t) (I : Nat) (F : Descriptor → Descriptor) :
    Option type_list_t :=
  if index_in_range TS I then some (detail.type_list_apply_index_t I F TS) else none

/-- The member `apply_range`: the `static_assert` comes first, then
`if constexpr(E <= S)` returns `*this`. -/
def apply_range (TS : type_list_t) (S E : Nat) (F : Descriptor → Descriptor) :
    Option type_list_t :=
  if range_assert TS S E then
    if E ≤ S then some TS else some (detail.type_list_apply_range_t S E F TS)
  else none

/-- The member `filter`. -/
def filter (TS : type_list_t) (F : Descriptor → Bool) : type_list_t :=
  detail.type_list_filter_t F TS

/-- The member `filter_range`: the `static_assert` comes first, then
`if constexpr(E <= S)` returns `*this`. -/
def filter_range (TS : type_list_t) (S E : Nat) (F : Descriptor → Bool) :
    Option type_list_t :=
  if range_assert TS S E then
    if E ≤ S then some TS else some (detail.type_list_filter_range_t S E F TS)
  else none

/-- The member `remove(tag_t<T>)`. -/
def remove (TS : type_list_t) (T : Descriptor) : type_list_t :=
  detail.type_list_remove_t T TS

/-- The member `remove(index_t<S>, index_t<E>)`: the `static_assert` comes first, then
`if constexpr(E <= S)` returns `*this`. -/
def remove_index (TS : type_list_t) (S E : Nat) : Option type_list_t :=
  if range_assert TS S E then
    if E ≤ S then some TS else some (detail.type_list_remove_index_t S E TS)
  else none

/-- The member `remove(index_t<S>)` with the default template argument `E = S + 1`. -/
def remove_at (TS : type_list_t) (S : Nat) : Option type_list_t :=
  remove_index TS S (size_add S 1)

/-- The member `count_of`. -/
def count_of (TS : type_list_t) (T : Descriptor) : Nat :=
  detail.type_list_count_of_v T TS

/-- The member `index_of`: a `static_assert` on `type_list_count_of_v < 2`, then
`type_list_index_of_v`. -/
def index_of (TS : type_list_t) (T : Descriptor) : Option Nat :=
  if detail.type_list_count_of_v T TS < 2 then some (detail.type_list_index_of_v T TS)
  else none

/-- The member `append(type_list_t<OTS...>)`: the binary left fold
`(type_list_t<TS...>() + ... + tag<OTS>)`. -/
def append_list (TS OTS : type_list_t) : type_list_t :=
  OTS.foldl operator_plus TS

/-- The member `prepend(type_list_t<OTS...>)`: the binary left fold
`(type_list_t<OTS...>() + ... + tag<TS>)`. -/
def prepend_list (TS OTS : type_list_t) : type_list_t :=
  TS.foldl operator_plus OTS

/-- The member `operator+(type_list_t<OTS...>)`: the binary left fold
`(type_list_t<TS...>() + ... + tag<OTS>)`. -/
def operator_plus_list (TS OTS : type_list_t) : type_list_t :=
  OTS.foldl operator_plus TS

/-- The member `all_of`: the fold `(F<TS>::value && ... && true)`. -/
def all_of (TS : type_list_t) (F : Descriptor → Bool) : Bool :=
  TS.foldr (fun T acc => F T && acc) true

/-- The member `operator==`: `false` unless `sizeof...(TS) == sizeof...(OT)`, then
the fold `(std::is_same_v<TS, OT> && ... && true)` over the two packs in step. -/
def operator_eq (TS OT : type_list_t) : Bool :=
  if TS.length = OT.length then
    (List.zip TS OT).foldr (fun p acc => is_same p.1 p.2 && acc) true
  else false

/-- The member `operator!=`: `!(*this == other)`. -/
def operator_ne (TS OT : type_list_t) : Bool := !(operator_eq TS OT)

/-- The member `one_of`: the fold `(F<TS>::value || ... || false)`. -/
def one_of (TS : type_list_t) (F : Descriptor → Bool) : Bool :=
  TS.foldr (fun T acc => F T || acc) false

/-- Modelled from the spec: the member `pop_front`, which the tests call and the header
does not declare.  It removes the first element; on an already-empty sequence it is a
no-op that returns the empty sequence, not an error. -/
def pop_front : type_list_t → Option type_list_t
  | [] => some []
  | _ :: TS => some TS

/-- Modelled from the spec: the member `pop_back`, which the tests call and the header
does not declare.  It removes the last element; on an already-empty sequence it is a
no-op that returns the empty sequence, not an error. -/
def pop_back : type_list_t → Option type_list_t
  | [] => some []
  | [_] => some []
  | T :: U :: TS => (pop_back (U :: TS)).map (fun R => T :: R)

/-! ## The repository's tests, evaluated on the embedding -/

example : front [int_t] = some int_t ∧ front [float_t, int_t] = some float_t := by decide
example : back [int_t] = some int_t ∧ back [int_t, float_t] = some float_t := by decide
example : index_of [int_t, double_t] int_t = some 0
    ∧ index_of [int_t, double_t] double_t = some 1
    ∧ index_of [int_t, double_t] short_t = some npos := by decide
example : at_ [int_t, double_t, short_t] 0 = some int_t
    ∧ at_ [int_t, double_t, short_t] 1 = some double_t
    ∧ at_ [int_t, double_t, short_t] 2 = some short_t := by decide
example : apply [] add_const = []
    ∧ apply [int_t, double_t] add_const = [add_const int_t, add_const double_t]
    ∧ apply_index [int_t, double_t] 0 add_const = some [add_const int_t, double_t]
    ∧ apply_range [int_t, double_t, float_t, short_t, long_t] 1 3 add_const
        = some [int_t, add_const double_t, add_const float_t, short_t, long_t] := by decide
example : filter [] is_const = []
    ∧ filter [int_t, add_const double_t, float_t] is_const = [add_const double_t]
    ∧ filter_range [int_t, add_const double_t, float_t] 1 3 is_const
        = some [int_t, add_const double_t] := by decide
example : remove [] int_t = [] ∧ remove [int_t, int_t] int_t = []
    ∧ remove [int_t, int_t, double_t] int_t = [double_t]
    ∧ remove_at [int_t, double_t] 0 = some [double_t]
    ∧ remove_at [int_t, double_t, short_t] 1 = some [int_t, short_t]
    ∧ remove_at [int_t, double_t, short_t] 2 = some [int_t, double_t]
    ∧ remove_index [int_t, double_t, short_t, float_t] 1 3 = some [int_t, float_t] := by
  decide

example : contains [int_t, double_t] int_t = true ∧ contains [int_t, double_t] double_t = true
    ∧ contains [int_t, double_t] float_t = false ∧ contains [] int_t = false := by decide
example : count_of [] int_t = 0 ∧ count_of [double_t] int_t = 0
    ∧ count_of [int_t, double_t] double_t = 1
    ∧ count_of [int_t, double_t, double_t] double_t = 2 := by decide
example : all_of [] is_const = true ∧ all_of [add_const int_t] is_const = true
    ∧ all_of [int_t] is_const = false ∧ all_of [add_const int_t, int_t] is_const = false := by
  decide
example : operator_eq [int_t, double_t, float_t] [int_t, double_t, float_t] = true
    ∧ operator_ne [int_t] [float_t] = true ∧ operator_ne [int_t] [int_t, float_t] = true
    ∧ operator_ne [int_t] [int_t, int_t] = true := by decide
example : append [int_t] double_t = [int_t, double_t] ∧ append [] double_t = [double_t]
    ∧ append [int_t, double_t] double_t = [int_t, double_t, double_t]
    ∧ append_list [] [int_t] = [int_t] ∧ append_list [] [int_t, double_t] = [int_t, double_t]
    ∧ append_list [short_t] [int_t] = [short_t, int_t]
    ∧ append_list [short_t] [int_t, double_t] = [short_t, int_t, double_t]
    ∧ operator_plus [] int_t = [int_t] ∧ operator_plus [int_t] int_t = [int_t, int_t]
    ∧ operator_plus [int_t] double_t = [int_t, double_t]
    ∧ operator_plus_list [int_t] [int_t, double_t] = [int_t, int_t, double_t] := by decide
example : prepend [int_t] double_t = [double_t, int_t] ∧ prepend [] double_t = [double_t]
    ∧ prepend [int_t, double_t] double_t = [double_t, int_t, double_t]
    ∧ prepend_list [] [int_t] = [int_t] ∧ prepend_list [] [int_t, double_t] = [int_t, double_t]
    ∧ prepend_list [short_t] [int_t] = [int_t, short_t]
    ∧ prepend_list [short_t] [int_t, double_t] = [int_t, double_t, short_t] := by decide

example : one_of [] is_const = false ∧ one_of [add_const int_t, int_t] is_const = true := by
  decide
example : size [] = 0 ∧ size [int_t] = 1 ∧ size [int_t, int_t] = 2
    ∧ empty [] = true ∧ empty [int_t] = false := by decide
example : pop_back [] = some [] ∧ pop_back [int_t] = some []
    ∧ pop_back [int_t, float_t] = some [int_t]
    ∧ pop_front [] = some [] ∧ pop_front [int_t] = some []
    ∧ pop_front [int_t, float_t] = some [float_t] := by decide

/-! ## Auxiliary lemmas -/

theorem SIZE_MOD_eq : SIZE_MOD = 18446744073709551616 := by
  norm_num [SIZE_MOD]

theorem is_same_iff (T U : Descriptor) : is_same T U = true ↔ T = U := by
  simp [is_same]

theorem is_ignore_ignore_t : detail.is_ignore detail.ignore_t = true := by decide

theorem index_in_range_iff (TS : type_list_t) (I : Nat) :
    index_in_range TS I = true ↔ I < TS.length := by
  simp [index_in_range]

theorem size_sub_one_of_pos (E : Nat) (h1 : 1 ≤ E) (h2 : E < SIZE_MOD) :
    size_sub E 1 = E - 1 := by
  rw [SIZE_MOD_eq] at h2
  simp only [size_sub, SIZE_MOD_eq]
  omega

theorem size_sub_zero_one : size_sub 0 1 = SIZE_MOD - 1 := by
  simp only [size_sub, SIZE_MOD_eq]

theorem size_add_one_of_lt (S : Nat) (h : S + 1 < SIZE_MOD) : size_add S 1 = S + 1 := by
  simp only [size_add]
  exact Nat.mod_eq_of_lt h

/-- The static assertion of the range members, for a list that fits `size_t`. -/
theorem range_assert_iff (TS : type_list_t) (S E : Nat) (hTS : TS.length < SIZE_MOD)
    (hE : E < SIZE_MOD) :
    range_assert TS S E = true ↔ S < TS.length ∧ 1 ≤ E ∧ E ≤ TS.length := by
  simp only [range_assert, Bool.and_eq_true, index_in_range_iff]
  rcases Nat.eq_zero_or_pos E with h0 | hpos
  · subst h0
    rw [size_sub_zero_one]
    omega
  · rw [size_sub_one_of_pos E hpos hE]
    omega

theorem type_list_element_eq (I : Nat) (TS : type_list_t) :
    detail.type_list_element I TS = TS.get? I := by
  induction TS generalizing I with
  | nil => cases I <;> rfl
  | cons T TS ih =>
    cases I with
    | zero => rfl
    | succ I => simpa [detail.type_list_element] using ih I

theorem at_eq (TS : type_list_t) (I : Nat) : at_ TS I = TS.get? I := by
  unfold at_
  by_cases h : I < TS.length
  · rw [if_pos ((index_in_range_iff TS I).2 h), type_list_element_eq]
  · have h2 : ¬ (index_in_range TS I = true) := fun h3 => h ((index_in_range_iff TS I).1 h3)
    rw [if_neg h2]
    exact (List.get?_eq_none.2 (Nat.le_of_not_lt h)).symm

theorem foldl_operator_plus (tags : List Descriptor) (acc : type_list_t) :
    tags.foldl operator_plus acc = acc ++ tags.filter (fun T => !detail.is_ignore T) := by
  induction tags generalizing acc with
  | nil => simp
  | cons T tags ih =>
    rw [List.foldl_cons, ih]
    by_cases h : detail.is_ignore T = true
    · simp [operator_plus, h]
    · simp [operator_plus, h]

theorem fold_plus_eq (tags : List Descriptor) :
    detail.fold_plus tags = tags.filter (fun T => !detail.is_ignore T) := by
  simp [detail.fold_plus, foldl_operator_plus]

theorem with_iseq_from_map_fst (n : Nat) (TS : type_list_t) :
    (detail.with_iseq_from n TS).map Prod.fst = TS := by
  induction TS generalizing n with
  | nil => rfl
  | cons T TS ih => simp [detail.with_iseq_from, ih]

/-- A transform that depends on the element alone is a map over the pack. -/
theorem with_iseq_from_map_elem (g : Descriptor → Descriptor) (n : Nat) (TS : type_list_t) :
    (detail.with_iseq_from n TS).map (fun p => g p.1) = TS.map g := by
  induction TS generalizing n with
  | nil => rfl
  | cons T TS ih => simp [detail.with_iseq_from, ih]

/-- A transform `a` inside the index range `[S, E)` and `b` outside of it splits the pack
in three segments. -/
theorem with_iseq_from_map_range (a b : Descriptor → Descriptor) (S E : Nat) (hSE : S ≤ E)
    (n : Nat) (TS : type_list_t) :
    (detail.with_iseq_from n TS).map
        (fun p => if decide (p.2 ≥ S) && decide (p.2 < E) then a p.1 else b p.1)
      = (TS.take (S - n)).map b ++ (((TS.take (E - n)).drop (S - n)).map a
          ++ (TS.drop (E - n)).map b) := by
  induction TS generalizing n with
  | nil => simp [detail.with_iseq_from]
  | cons T TS ih =>
    simp only [detail.with_iseq_from, List.map_cons]
    rw [ih (n + 1)]
    by_cases h1 : n < S
    · have e1 : S - n = (S - (n + 1)) + 1 := by omega
      have e2 : E - n = (E - (n + 1)) + 1 := by omega
      have h3 : ¬ (n ≥ S) := by omega
      rw [e1, e2]
      simp [h3]
    · by_cases h2 : n < E
      · have e1 : S - n = 0 := by omega
        have e1b : S - (n + 1) = 0 := by omega
        have e2 : E - n = (E - (n + 1)) + 1 := by omega
        have h3 : n ≥ S := by omega
        rw [e1, e1b, e2]
        simp [h3, h2]
      · have e1 : S - n = 0 := by omega
        have e1b : S - (n + 1) = 0 := by omega
        have e2 : E - n = 0 := by omega
        have e2b : E - (n + 1) = 0 := by omega
        rw [e1, e1b, e2, e2b]
        simp [h2]

theorem filter_not_ignore_of_forall (TS : type_list_t)
    (h : ∀ U ∈ TS, detail.is_ignore U = false) :
    TS.filter (fun T => !detail.is_ignore T) = TS := by
  rw [List.filter_eq_self]
  intro U hU
  simp [h U hU]

theorem range_assert_empty_iff (TS : type_list_t) (S E : Nat) (hTS : TS.length < SIZE_MOD)
    (hES : E ≤ S) : range_assert TS S E = true ↔ S < TS.length ∧ 1 ≤ E := by
  by_cases h : S < TS.length
  · rw [range_assert_iff TS S E hTS (by omega)]
    omega
  · simp only [range_assert, Bool.and_eq_true, index_in_range_iff]
    omega

theorem count_of_v_from (T : Descriptor) (n : Nat) (TS : type_list_t) :
    (detail.with_iseq_from n TS).foldr
      (fun p acc => (if is_same p.1 T then 1 else 0) + acc) 0 = TS.count T := by
  induction TS generalizing n with
  | nil => rfl
  | cons U TS ih =>
    simp only [detail.with_iseq_from, List.foldr_cons, ih (n + 1), List.count_cons]
    by_cases h : U = T
    · simp [is_same, h]; omega
    · simp [is_same, h]

theorem type_list_count_of_v_eq (T : Descriptor) (TS : type_list_t) :
    detail.type_list_count_of_v T TS = TS.count T :=
  count_of_v_from T 0 TS

theorem contains_iff (TS : type_list_t) (T : Descriptor) : contains TS T = true ↔ T ∈ TS := by
  unfold contains
  induction TS with
  | nil => simp
  | cons U TS ih =>
    simp only [List.foldr_cons, Bool.or_eq_true, ih, is_same_iff, List.mem_cons]

theorem index_of_value_absent (T : Descriptor) (n : Nat) (TS : type_list_t) (h : T ∉ TS) :
    (detail.with_iseq_from n TS).foldr
      (fun p acc => size_add (if is_same p.1 T then p.2 else 0) acc) 0 = 0 := by
  induction TS generalizing n with
  | nil => rfl
  | cons U TS ih =>
    have hU : ¬ (U = T) := fun e => h (by simp [e])
    have hT : T ∉ TS := fun e => h (by simp [e])
    simp only [detail.with_iseq_from, List.foldr_cons, ih (n + 1) hT]
    simp [is_same, hU, size_add]

theorem index_of_value_unique (T : Descriptor) (n : Nat) (TS : type_list_t)
    (h : TS.count T = 1) (hn : n + TS.length ≤ SIZE_MOD) :
    ∃ i, i < TS.length ∧ TS.get? i = some T ∧
      (detail.with_iseq_from n TS).foldr
        (fun p acc => size_add (if is_same p.1 T then p.2 else 0) acc) 0 = n + i := by
  induction TS generalizing n with
  | nil => simp at h
  | cons U TS ih =>
    simp only [List.length_cons] at hn
    by_cases hU : U = T
    · subst hU
      have hc : TS.count U = 0 := by
        rw [List.count_cons_self] at h
        omega
      have hT : U ∉ TS := List.count_eq_zero.1 hc
      refine ⟨0, by simp, by simp, ?_⟩
      simp only [detail.with_iseq_from, List.foldr_cons, index_of_value_absent U (n + 1) TS hT]
      simp only [is_same, decide_True, if_true, size_add, Nat.add_zero]
      exact Nat.mod_eq_of_lt (by omega)
    · have hc : TS.count T = 1 := by
        rw [List.count_cons_of_ne (fun e => hU e.symm)] at h
        exact h
      obtain ⟨i, hi, hget, hval⟩ := ih (n + 1) hc (by omega)
      refine ⟨i + 1, by simp [hi], by simpa using hget, ?_⟩
      rw [detail.with_iseq_from, List.foldr_cons, hval]
      have hsame : is_same U T = false := by simp [is_same, hU]
      simp only [hsame, size_add, Nat.zero_add]
      rw [if_neg (by simp), Nat.zero_add, Nat.mod_eq_of_lt (by omega)]
      omega

theorem count_one_position_unique (T : Descriptor) (TS : type_list_t) (h : TS.count T = 1)
    (i j : Nat) (hi : TS.get? i = some T) (hj : TS.get? j = some T) : i = j := by
  induction TS generalizing i j with
  | nil => simp at h
  | cons U TS ih =>
    by_cases hU : U = T
    · subst hU
      have hc : TS.count U = 0 := by
        rw [List.count_cons_self] at h
        omega
      have hT : U ∉ TS := List.count_eq_zero.1 hc
      cases i with
      | succ i => exact absurd (List.get?_mem (by simpa using hi)) hT
      | zero =>
        cases j with
        | succ j => exact absurd (List.get?_mem (by simpa using hj)) hT
        | zero => rfl
    · have hc : TS.count T = 1 := by
        rw [List.count_cons_of_ne (fun e => hU e.symm)] at h
        exact h
      cases i with
      | zero => simp at hi; exact absurd hi hU
      | succ i =>
        cases j with
        | zero => simp at hj; exact absurd hj hU
        | succ j =>
          have := ih hc i j (by simpa using hi) (by simpa using hj)
          omega

theorem remove_eq_filter (S : type_list_t) (T : Descriptor) :
    remove S T = S.filter (fun U => decide (U ≠ T) && !detail.is_ignore U) := by
  unfold remove detail.type_list_remove_t detail.with_iseq
  rw [fold_plus_eq,
    with_iseq_from_map_elem (fun U => if is_same T U then detail.ignore_t else U) 0 S]
  induction S with
  | nil => rfl
  | cons U S ih =>
    rw [List.map_cons, List.filter_cons, List.filter_cons, ih]
    by_cases hU : U = T
    · subst hU
      simp [is_same, is_ignore_ignore_t]
    · have hU2 : ¬ (T = U) := fun e => hU e.symm
      simp [is_same, hU, hU2]

theorem filter_eq_filter (S : type_list_t) (F : Descriptor → Bool) :
    filter S F = S.filter (fun U => F U && !detail.is_ignore U) := by
  unfold filter detail.type_list_filter_t detail.with_iseq
  rw [fold_plus_eq, with_iseq_from_map_elem (fun U => if F U then U else detail.ignore_t) 0 S]
  induction S with
  | nil => rfl
  | cons U S ih =>
    rw [List.map_cons, List.filter_cons, List.filter_cons, ih]
    by_cases hU : F U = true
    · simp [hU]
    · simp [hU, is_ignore_ignore_t]

theorem filter_not_ignore_map_ignore (TS : type_list_t) :
    (TS.map (fun _ => detail.ignore_t)).filter (fun T => !detail.is_ignore T) = [] := by
  induction TS with
  | nil => rfl
  | cons U TS ih => simp [List.filter_cons, is_ignore_ignore_t, ih]

theorem filter_not_ignore_map_keep (F : Descriptor → Bool) (TS : type_list_t) :
    (TS.map (fun U => if F U then U else detail.ignore_t)).filter
        (fun T => !detail.is_ignore T)
      = (TS.filter F).filter (fun T => !detail.is_ignore T) := by
  induction TS with
  | nil => rfl
  | cons U TS ih =>
    rw [List.map_cons, List.filter_cons, List.filter_cons, ih]
    by_cases hU : F U = true
    · simp [hU, List.filter_cons]
    · simp [hU, is_ignore_ignore_t]

theorem range_assert_of_lt (TS : type_list_t) (S E : Nat) (hTS : TS.length < SIZE_MOD)
    (h1 : S < E) (h2 : E ≤ TS.length) : range_assert TS S E = true := by
  rw [range_assert_iff TS S E hTS (by omega)]
  omega

theorem remove_index_eq (TS : type_list_t) (S E : Nat) (hTS : TS.length < SIZE_MOD)
    (h1 : S < E) (h2 : E ≤ TS.length) :
    remove_index TS S E
      = some ((TS.take S ++ TS.drop E).filter (fun T => !detail.is_ignore T)) := by
  have key : (detail.with_iseq_from 0 TS).map
        (fun p => if decide (p.2 ≥ S) && decide (p.2 < E) then detail.ignore_t else p.1)
      = (TS.take (S - 0)).map (fun U => U)
          ++ (((TS.take (E - 0)).drop (S - 0)).map (fun _ => detail.ignore_t)
          ++ (TS.drop (E - 0)).map (fun U => U)) :=
    with_iseq_from_map_range (fun _ => detail.ignore_t) (fun U => U) S E (by omega) 0 TS
  unfold remove_index detail.type_list_remove_index_t detail.with_iseq
  rw [if_pos (range_assert_of_lt TS S E hTS h1 h2), if_neg (by omega), fold_plus_eq, key]
  simp only [Nat.sub_zero, List.map_id', List.filter_append, filter_not_ignore_map_ignore,
    List.nil_append]

theorem filter_range_eq (TS : type_list_t) (S E : Nat) (P : Descriptor → Bool)
    (hTS : TS.length < SIZE_MOD) (h1 : S < E) (h2 : E ≤ TS.length) :
    filter_range TS S E P
      = some ((TS.take S ++ (((TS.take E).drop S).filter P ++ TS.drop E)).filter
          (fun T => !detail.is_ignore T)) := by
  have key : (detail.with_iseq_from 0 TS).map
        (fun p => if decide (p.2 ≥ S) && decide (p.2 < E)
          then (if P p.1 then p.1 else detail.ignore_t) else p.1)
      = (TS.take (S - 0)).map (fun U => U)
          ++ (((TS.take (E - 0)).drop (S - 0)).map
                (fun U => if P U then U else detail.ignore_t)
          ++ (TS.drop (E - 0)).map (fun U => U)) :=
    with_iseq_from_map_range (fun U => if P U then U else detail.ignore_t) (fun U => U)
      S E (by omega) 0 TS
  have hfun : (fun p : Descriptor × Nat => if P p.1 then p.1
        else if decide (p.2 ≥ S) && decide (p.2 < E) then detail.ignore_t else p.1)
      = (fun p => if decide (p.2 ≥ S) && decide (p.2 < E)
          then (if P p.1 then p.1 else detail.ignore_t) else p.1) := by
    funext p
    by_cases hP : P p.1 = true
    · by_cases hR : (decide (p.2 ≥ S) && decide (p.2 < E)) = true
      · rw [if_pos hP, if_pos hR, if_pos hP]
      · rw [if_pos hP, if_neg hR]
    · by_cases hR : (decide (p.2 ≥ S) && decide (p.2 < E)) = true
      · rw [if_neg hP, if_pos hR, if_pos hR, if_neg hP]
      · rw [if_neg hP, if_neg hR, if_neg hR]
  unfold filter_range detail.type_list_filter_range_t detail.with_iseq
  rw [if_pos (range_assert_of_lt TS S E hTS h1 h2), if_neg (by omega), fold_plus_eq, hfun, key]
  simp only [Nat.sub_zero, List.map_id', List.filter_append, filter_not_ignore_map_keep]

theorem apply_eq_map (S : type_list_t) (F : Descriptor → Descriptor) :
    apply S F = S.map F := by
  induction S with
  | nil => rfl
  | cons T S ih => simp [apply, ih]

theorem front_eq_at_zero (S : type_list_t) (h : S ≠ []) :
    front S = some (S.head h) ∧ front S = at_ S 0 := by
  cases S with
  | nil => exact absurd rfl h
  | cons T S => exact ⟨rfl, by rw [at_eq]; rfl⟩

theorem fold_comma_eq_getLast (es : List detail.Expr) (h : es ≠ []) :
    detail.fold_comma es = es.getLast h := by
  induction es with
  | nil => exact absurd rfl h
  | cons e es ih =>
    cases es with
    | nil => rfl
    | cons e2 es =>
      rw [List.getLast_cons (by simp)]
      exact ih (by simp)

/-- On a non-empty list `back()` is `decltype` of the call `declfwd<T>()` for the last
descriptor `T`. -/
theorem back_eq_decltype_last (S : type_list_t) (h : S ≠ []) :
    back S = some (detail.decltype (detail.declfwd (S.getLast h))) := by
  unfold back
  rw [fold_comma_eq_getLast (S.map detail.declfwd) (by simpa using h), List.getLast_map]

/-- The type `decltype(declfwd<T>())` is `T` unless `T` is a cv-qualified non-class,
non-reference type, whose qualifiers are dropped. -/
theorem decltype_declfwd (T : Descriptor) :
    detail.decltype (detail.declfwd T)
      = if T.ref = RefQual.none ∧ T.base.is_class = false
        then { T with is_const := false, is_volatile := false } else T := by
  obtain ⟨b, c, v, r⟩ := T
  cases r <;> cases hb : b.is_class <;>
    simp [detail.declfwd, detail.decltype, remove_reference, hb]

/-- Position by position, a transform of the indexed pack acts on the element and its
index. -/
theorem map_pack_getElem? (g : Descriptor × Nat → Descriptor) (n : Nat) (TS : type_list_t)
    (j : Nat) :
    ((detail.with_iseq_from n TS).map g)[j]? = (TS[j]?).map (fun T => g (T, n + j)) := by
  induction TS generalizing n j with
  | nil => simp [detail.with_iseq_from]
  | cons U TS ih =>
    cases j with
    | zero => simp [detail.with_iseq_from]
    | succ j =>
      have e : n + 1 + j = n + (j + 1) := by omega
      simp only [detail.with_iseq_from, List.map_cons, List.getElem?_cons_succ]
      rw [ih (n + 1) j, e]

theorem map_pack_length (g : Descriptor × Nat → Descriptor) (n : Nat) (TS : type_list_t) :
    ((detail.with_iseq_from n TS).map g).length = TS.length := by
  induction TS generalizing n with
  | nil => rfl
  | cons U TS ih => simp [detail.with_iseq_from, ih (n + 1)]

theorem apply_index_pack_eq_set (I : Nat) (F : Descriptor → Descriptor) (TS : type_list_t)
    (h : I < TS.length) :
    (detail.with_iseq TS).map (fun p => if decide (I = p.2) then F p.1 else p.1)
      = TS.set I (F (TS.get ⟨I, h⟩)) := by
  apply List.ext_getElem?
  intro j
  rw [detail.with_iseq, map_pack_getElem?, List.getElem?_set]
  by_cases hj : I = j
  · subst hj
    simp [h]
  · simp [hj]

theorem apply_index_eq (TS : type_list_t) (I : Nat) (F : Descriptor → Descriptor)
    (h : I < TS.length) :
    apply_index TS I F
      = some ((TS.set I (F (TS.get ⟨I, h⟩))).filter (fun T => !detail.is_ignore T)) := by
  unfold apply_index detail.type_list_apply_index_t
  rw [if_pos ((index_in_range_iff TS I).2 h), fold_plus_eq, apply_index_pack_eq_set I F TS h]

theorem apply_range_pack_eq (TS : type_list_t) (S E : Nat) (F : Descriptor → Descriptor)
    (h1 : S ≤ E) :
    (detail.with_iseq TS).map
        (fun p => if decide (p.2 ≥ S) && decide (p.2 < E) then F p.1 else p.1)
      = TS.take S ++ (((TS.take E).drop S).map F ++ TS.drop E) := by
  have key := with_iseq_from_map_range F (fun U => U) S E h1 0 TS
  simp only [Nat.sub_zero, List.map_id'] at key
  exact key

theorem apply_range_eq (TS : type_list_t) (S E : Nat) (F : Descriptor → Descriptor)
    (hTS : TS.length < SIZE_MOD) (h1 : S < E) (h2 : E ≤ TS.length) :
    apply_range TS S E F
      = some ((TS.take S ++ (((TS.take E).drop S).map F ++ TS.drop E)).filter
          (fun T => !detail.is_ignore T)) := by
  unfold apply_range detail.type_list_apply_range_t
  rw [if_pos (range_assert_of_lt TS S E hTS h1 h2), if_neg (by omega), fold_plus_eq,
    apply_range_pack_eq TS S E F (by omega)]

theorem apply_range_pack_at (TS : type_list_t) (S E : Nat) (F : Descriptor → Descriptor)
    (h1 : S ≤ E) (j : Nat) :
    at_ (TS.take S ++ (((TS.take E).drop S).map F ++ TS.drop E)) j
      = if S ≤ j ∧ j < E then (at_ TS j).map F else at_ TS j := by
  rw [← apply_range_pack_eq TS S E F h1, at_eq, at_eq, List.get?_eq_getElem?,
    List.get?_eq_getElem?, detail.with_iseq, map_pack_getElem?]
  by_cases hj : S ≤ j ∧ j < E
  · rw [if_pos hj]
    congr 1
    funext T
    simp [hj.1, hj.2]
  · rw [if_neg hj]
    have hfun : (fun T : Descriptor =>
        (fun p : Descriptor × Nat =>
          if decide (p.2 ≥ S) && decide (p.2 < E) then F p.1 else p.1) (T, 0 + j))
        = fun T => T := by
      funext T
      have : ¬ (S ≤ j ∧ j < E) := hj
      simp only [Nat.zero_add, ge_iff_le, Bool.and_eq_true, decide_eq_true_eq, this, if_false]
    rw [hfun]
    simp

theorem append_list_eq (TS OTS : type_list_t) :
    append_list TS OTS = TS ++ OTS.filter (fun T => !detail.is_ignore T) :=
  foldl_operator_plus OTS TS

theorem filter_not_ignore_idem (TS : type_list_t) :
    (TS.filter (fun T => !detail.is_ignore T)).filter (fun T => !detail.is_ignore T)
      = TS.filter (fun T => !detail.is_ignore T) := by
  rw [List.filter_filter]
  simp

theorem append_list_assoc (S T1 T2 : type_list_t) :
    append_list (append_list S T1) T2 = append_list S (append_list T1 T2) := by
  simp only [append_list_eq, List.filter_append, filter_not_ignore_idem, List.append_assoc]

theorem zip_fold_is_same_iff (A B : type_list_t) (h : A.length = B.length) :
    (List.zip A B).foldr (fun p acc => is_same p.1 p.2 && acc) true = true ↔ A = B := by
  induction A generalizing B with
  | nil =>
    cases B with
    | nil => simp
    | cons U B => simp at h
  | cons T A ih =>
    cases B with
    | nil => simp at h
    | cons U B =>
      have hlen : A.length = B.length := by simpa using h
      simp only [List.zip_cons_cons, List.foldr_cons, Bool.and_eq_true, is_same_iff, ih B hlen,
        List.cons.injEq]

theorem operator_eq_iff (A B : type_list_t) : operator_eq A B = true ↔ A = B := by
  unfold operator_eq
  by_cases h : A.length = B.length
  · rw [if_pos h]
    exact zip_fold_is_same_iff A B h
  · rw [if_neg h]
    constructor
    · intro hf
      exact absurd hf (by simp)
    · intro hAB
      exact absurd (by rw [hAB]) h

theorem all_of_iff (S : type_list_t) (F : Descriptor → Bool) :
    all_of S F = true ↔ ∀ T ∈ S, F T = true := by
  unfold all_of
  induction S with
  | nil => simp
  | cons U S ih => simp only [List.foldr_cons, Bool.and_eq_true, ih, List.forall_mem_cons]

theorem count_eq_positions (T : Descriptor) (S : type_list_t) :
    S.count T
      = ((List.range S.length).filter (fun i => decide (S[i]? = some T))).length := by
  induction S with
  | nil => rfl
  | cons U S ih =>
    rw [List.length_cons, List.range_succ_eq_map, List.filter_cons, List.filter_map,
      List.count_cons, ih]
    by_cases h : U = T
    · simp [h, Function.comp_def]
    · simp [h, Function.comp_def]

theorem prepend_list_eq (TS OTS : type_list_t) :
    prepend_list TS OTS = OTS ++ TS.filter (fun T => !detail.is_ignore T) :=
  foldl_operator_plus TS OTS

theorem eq_of_at_eq (A B : type_list_t) (hlen : A.length = B.length)
    (h : ∀ i, i < A.length → at_ A i = at_ B i) : A = B := by
  apply List.ext_get?
  intro i
  by_cases hi : i < A.length
  · rw [← at_eq, ← at_eq]
    exact h i hi
  · rw [List.get?_eq_none.2 (by omega), List.get?_eq_none.2 (by omega)]

theorem one_of_iff (S : type_list_t) (F : Descriptor → Bool) :
    one_of S F = true ↔ ∃ T ∈ S, F T = true := by
  unfold one_of
  induction S with
  | nil => simp
  | cons U S ih => simp only [List.foldr_cons, Bool.or_eq_true, ih, List.exists_mem_cons_iff]

theorem filter_idem (S : type_list_t) (F : Descriptor → Bool) :
    filter (filter S F) F = filter S F := by
  rw [filter_eq_filter (filter S F) F, filter_eq_filter S F, List.filter_filter]
  simp

theorem pop_back_eq_dropLast (S : type_list_t) : pop_back S = some S.dropLast := by
  induction S with
  | nil => rfl
  | cons T S ih =>
    cases S with
    | nil => rfl
    | cons U S =>
      rw [pop_back, ih]
      rfl

theorem pop_front_eq_tail (S : type_list_t) : pop_front S = some S.tail := by
  cases S <;> rfl

theorem not_ignore_of_mem_filter (TS : type_list_t) (U : Descriptor)
    (h : U ∈ TS.filter (fun T => !detail.is_ignore T)) : detail.is_ignore U = false := by
  have h2 := (List.mem_filter.1 h).2
  simpa using h2

theorem range_member_isSome (TS : type_list_t) (S E : Nat) (F : Descriptor → Descriptor)
    (P : Descriptor → Bool) :
    (apply_range TS S E F).isSome = range_assert TS S E
    ∧ (filter_range TS S E P).isSome = range_assert TS S E
    ∧ (remove_index TS S E).isSome = range_assert TS S E := by
  unfold apply_range filter_range remove_index
  cases h : range_assert TS S E
  · simp
  · by_cases hE : E ≤ S
    · simp [hE]
    · simp [hE]

theorem apply_index_t_eq_apply_range_t (TS : type_list_t) (I : Nat)
    (F : Descriptor → Descriptor) :
    detail.type_list_apply_index_t I F TS = detail.type_list_apply_range_t I (I + 1) F TS := by
  unfold detail.type_list_apply_index_t detail.type_list_apply_range_t
  congr 2
  funext p
  by_cases h : I = p.2
  · have h1 : p.2 ≥ I := by omega
    have h2 : p.2 < I + 1 := by omega
    simp [h, h1, h2]
  · have h3 : ¬ (p.2 ≥ I ∧ p.2 < I + 1) := by omega
    have h4 : (decide (p.2 ≥ I) && decide (p.2 < I + 1)) = false := by
      simpa using h3
    rw [h4]
    simp [h]

theorem remove_size_identity (S : type_list_t) (T : Descriptor) :
    (S.filter (fun U => decide (U ≠ T) && !detail.is_ignore U)).length + S.count T
      + S.countP (fun U => decide (U ≠ T) && detail.is_ignore U) = S.length := by
  induction S with
  | nil => rfl
  | cons U S ih =>
    rw [List.filter_cons, List.count_cons, List.countP_cons, List.length_cons]
    simp only [ne_eq, decide_not] at ih ⊢
    by_cases hU : U = T
    · subst hU
      simp
      omega
    · cases hI : detail.is_ignore U
      · simp [hU]
        omega
      · simp [hU]
        omega

theorem is_ignore_iff (T : Descriptor) :
    detail.is_ignore T = true ↔ remove_cvref T = detail.ignore_t := by
  unfold detail.is_ignore
  exact is_same_iff _ _

theorem tag_member_unchanged_iff (S : type_list_t) (T : Descriptor) :
    (append S T = S ↔ detail.is_ignore T = true)
    ∧ (prepend S T = S ↔ detail.is_ignore T = true)
    ∧ (operator_plus S T = S ↔ detail.is_ignore T = true) := by
  cases h : detail.is_ignore T
  · have h1 : S ++ [T] ≠ S := fun e => by
      have := congrArg List.length e
      simp at this
    have h2 : T :: S ≠ S := fun e => by
      have := congrArg List.length e
      simp at this
    simp [append, prepend, operator_plus, h, h1, h2]
  · simp [append, prepend, operator_plus, h]

theorem range_results_sentinel_free (S : type_list_t) (S0 E0 : Nat)
    (F : Descriptor → Descriptor) (P : Descriptor → Bool) (h : S0 < E0) :
    (∀ R, apply_range S S0 E0 F = some R → ∀ U ∈ R, detail.is_ignore U = false)
    ∧ (∀ R, filter_range S S0 E0 P = some R → ∀ U ∈ R, detail.is_ignore U = false)
    ∧ (∀ R, remove_index S S0 E0 = some R → ∀ U ∈ R, detail.is_ignore U = false) := by
  have hES : ¬ (E0 ≤ S0) := by omega
  unfold apply_range filter_range remove_index detail.type_list_apply_range_t
    detail.type_list_filter_range_t detail.type_list_remove_index_t
  simp only [fold_plus_eq, if_neg hES]
  cases hv : range_assert S S0 E0
  · simp
  · simp only [if_true, Option.some.injEq]
    refine ⟨?_, ?_, ?_⟩ <;>
    · intro R hR U hU
      rw [← hR] at hU
      exact not_ignore_of_mem_filter _ U hU

theorem apply_index_result_sentinel_free (S : type_list_t) (I : Nat)
    (F : Descriptor → Descriptor) :
    ∀ R, apply_index S I F = some R → ∀ U ∈ R, detail.is_ignore U = false := by
  unfold apply_index detail.type_list_apply_index_t
  simp only [fold_plus_eq]
  cases hv : index_in_range S I
  · simp
  · simp only [if_true, Option.some.injEq]
    intro R hR U hU
    rw [← hR] at hU
    exact not_ignore_of_mem_filter _ U hU

/-! ## Claims -/

/-- C1 (counterexample): with `E0 <= S0` the three range members are not always
accepted: `apply_range(index<1>, index<1>, F)` is rejected on the empty list and on a
list of length one, and each of the three is rejected with `S0 == E0 == size()` and with
`E0 == 0`. -/
theorem C1_empty_range_rejected :
    (1 : Nat) ≤ 1 ∧ (0 : Nat) ≤ 0
    ∧ apply_range [] 1 1 add_const ≠ some []
    ∧ apply_range [int_t] 1 1 add_const ≠ some [int_t]
    ∧ filter_range [int_t] 1 1 is_const ≠ some [int_t]
    ∧ remove_index [int_t] 1 1 ≠ some [int_t]
    ∧ apply_range [int_t] 0 0 add_const ≠ some [int_t]
    ∧ filter_range [int_t] 0 0 is_const ≠ some [int_t]
    ∧ remove_index [int_t] 0 0 ≠ some [int_t] := by
  decide

/-- C1 (amended): for every list `S` that fits `size_t` and all indices with `E0 <= S0`,
each of `apply_range(S0, E0, F)`, `filter_range(S0, E0, P)` and `remove(S0, E0)` is
accepted exactly when `S0 < size()` and `1 <= E0`, and then returns `S` unchanged;
otherwise the call is rejected. -/
theorem C1_empty_range_accepted_iff (S : type_list_t) (S0 E0 : Nat)
    (F : Descriptor → Descriptor) (P : Descriptor → Bool)
    (hS : S.length < SIZE_MOD) (hES : E0 ≤ S0) :
    apply_range S S0 E0 F = (if S0 < size S ∧ 1 ≤ E0 then some S else none)
    ∧ filter_range S S0 E0 P = (if S0 < size S ∧ 1 ≤ E0 then some S else none)
    ∧ remove_index S S0 E0 = (if S0 < size S ∧ 1 ≤ E0 then some S else none) := by
  have key := range_assert_empty_iff S S0 E0 hS hES
  unfold apply_range filter_range remove_index size
  by_cases h : S0 < S.length ∧ 1 ≤ E0
  · simp [key.2 h, h, hES]
  · have h2 : ¬ (range_assert S S0 E0 = true) := fun h3 => h (key.1 h3)
    simp [h2, h]

/-- Witness of C1 (amended) on `type_list<int, double, float>`: `apply_range`,
`filter_range` and `remove` with `S0 = 2`, `E0 = 1` return the list unchanged. -/
theorem C1_empty_range_accepted_iff_witness :
    [int_t, double_t, float_t].length < SIZE_MOD ∧ (1 : Nat) ≤ 2
    ∧ (apply_range [int_t, double_t, float_t] 2 1 add_const
        = (if 2 < size [int_t, double_t, float_t] ∧ 1 ≤ 1
            then some [int_t, double_t, float_t] else none)
      ∧ filter_range [int_t, double_t, float_t] 2 1 is_const
        = (if 2 < size [int_t, double_t, float_t] ∧ 1 ≤ 1
            then some [int_t, double_t, float_t] else none)
      ∧ remove_index [int_t, double_t, float_t] 2 1
        = (if 2 < size [int_t, double_t, float_t] ∧ 1 ≤ 1
            then some [int_t, double_t, float_t] else none)) :=
  ⟨by decide, by decide,
    C1_empty_range_accepted_iff [int_t, double_t, float_t] 2 1 add_const is_const
      (by decide) (by decide)⟩

/-- C2 (code at the failing input): on the empty list `front()` is rejected, and `back()`
is accepted and yields `tag_t<void>`, the type of the empty comma fold `void()`. -/
theorem C2_back_empty_is_void :
    front [] = none ∧ back [] = some void_t := by
  decide

/-- C3: for a list that fits `size_t`, `index_of(tag<T>)` is rejected if and only if `T`
occurs two or more times; when `T` occurs exactly once it returns the position `i` of
that occurrence (`i < size()`, `at(i)` is `T`, and no other position holds `T`); when
`T` does not occur it returns `npos`, the maximum value of `size_t`. -/
theorem C3_index_of (S : type_list_t) (T : Descriptor) (hS : S.length < SIZE_MOD) :
    (index_of S T = none ↔ 2 ≤ S.count T)
    ∧ (S.count T = 1 → ∃ i, index_of S T = some i ∧ i < size S ∧ at_ S i = some T
        ∧ ∀ j, at_ S j = some T → j = i)
    ∧ (S.count T = 0 → index_of S T = some npos)
    ∧ npos = 2 ^ 64 - 1 := by
  refine ⟨?_, ?_, ?_, rfl⟩
  · unfold index_of
    rw [type_list_count_of_v_eq]
    by_cases h : S.count T < 2
    · simp [h]
    · simp [h]; omega
  · intro h1
    obtain ⟨i, hi, hget, hval⟩ := index_of_value_unique T 0 S h1 (by omega)
    have hmem : T ∈ S := List.get?_mem hget
    refine ⟨i, ?_, hi, by rw [at_eq]; exact hget, ?_⟩
    · unfold index_of detail.type_list_index_of_v detail.index_of_value detail.with_iseq
      rw [type_list_count_of_v_eq, hval, if_pos (by omega), if_pos ((contains_iff S T).2 hmem)]
      simp
    · intro j hj
      rw [at_eq] at hj
      exact count_one_position_unique T S h1 j i hj hget
  · intro h0
    have hmem : T ∉ S := List.count_eq_zero.1 h0
    have hc : ¬ (contains S T = true) := fun h => hmem ((contains_iff S T).1 h)
    unfold index_of detail.type_list_index_of_v
    rw [type_list_count_of_v_eq, if_pos (by omega), if_neg hc]

/-- Witness of C3 on `type_list<int, double>`: `double` occurs once and `index_of`
returns its position; `short` does not occur and `index_of` returns `npos`. -/
theorem C3_index_of_witness :
    [int_t, double_t].length < SIZE_MOD
    ∧ [int_t, double_t].count double_t = 1
    ∧ (∃ i, index_of [int_t, double_t] double_t = some i ∧ i < size [int_t, double_t]
          ∧ at_ [int_t, double_t] i = some double_t
          ∧ ∀ j, at_ [int_t, double_t] j = some double_t → j = i)
    ∧ [int_t, double_t].count short_t = 0
    ∧ index_of [int_t, double_t] short_t = some npos :=
  ⟨by decide, by decide,
    (C3_index_of [int_t, double_t] double_t (by decide)).2.1 (by decide),
    by decide,
    (C3_index_of [int_t, double_t] short_t (by decide)).2.2.1 (by decide)⟩

/-- C4: `at(index<I>)` returns the descriptor at position `I` when `I < size()`, and is
rejected exactly when `I >= size()`; every call on the empty list is rejected. -/
theorem C4_at (S : type_list_t) (I : Nat) :
    (∀ h : I < S.length, at_ S I = some (S.get ⟨I, h⟩))
    ∧ (at_ S I = none ↔ size S ≤ I)
    ∧ at_ [] I = none := by
  refine ⟨?_, ?_, ?_⟩
  · intro h
    rw [at_eq, List.get?_eq_get h]
  · rw [at_eq, List.get?_eq_none]
    rfl
  · rw [at_eq]
    rfl

/-- Witness of C4 on `type_list<int, double, short>` at index 1, which is in range. -/
theorem C4_at_witness :
    ∃ h : 1 < [int_t, double_t, short_t].length,
      at_ [int_t, double_t, short_t] 1 = some ([int_t, double_t, short_t].get ⟨1, h⟩) :=
  ⟨by decide, (C4_at [int_t, double_t, short_t] 1).1 (by decide)⟩

/-- C5 (code at the failing input): on `type_list<const int>` and on
`type_list<int, const double>` the member `back()` yields the unqualified `int`,
respectively `double`, while `at(index<size() - 1>)` yields `const int`, respectively
`const double`. -/
theorem C5_back_drops_cv :
    back [add_const int_t] = some int_t
    ∧ at_ [add_const int_t] (size [add_const int_t] - 1) = some (add_const int_t)
    ∧ back [int_t, add_const double_t] = some double_t
    ∧ at_ [int_t, add_const double_t] (size [int_t, add_const double_t] - 1)
        = some (add_const double_t)
    ∧ add_const int_t ≠ int_t ∧ add_const double_t ≠ double_t := by
  decide

/-- C6 (counterexample): `double` does not occur in `type_list<ignore_t, int>`, yet
`remove(tag<double>)` does not return the list unchanged: the sentinel element is
dropped. -/
theorem C6_remove_drops_sentinel :
    double_t ∉ [detail.ignore_t, int_t]
    ∧ remove [detail.ignore_t, int_t] double_t ≠ [detail.ignore_t, int_t]
    ∧ remove [detail.ignore_t, int_t] double_t
        ≠ [detail.ignore_t, int_t].filter (fun U => decide (U ≠ double_t)) := by
  decide

/-- C6 (amended): `remove(tag<T>)` returns exactly the elements of `S` that differ from
`T` and are not a cv/ref-qualified `detail::ignore_t`, in their original order, and the
result never contains `T`; when no element of `S` is a cv/ref-qualified
`detail::ignore_t`, the result is the subsequence of the elements different from `T`,
every other element keeps its multiplicity, and the result equals `S` if `T` does not
occur in `S`. -/
theorem C6_remove_tag (S : type_list_t) (T : Descriptor) :
    remove S T = S.filter (fun U => decide (U ≠ T) && !detail.is_ignore U)
    ∧ T ∉ remove S T
    ∧ ((∀ U ∈ S, detail.is_ignore U = false) →
        remove S T = S.filter (fun U => decide (U ≠ T))
        ∧ (∀ U, U ≠ T → (remove S T).count U = S.count U)
        ∧ (T ∉ S → remove S T = S)) := by
  refine ⟨remove_eq_filter S T, ?_, ?_⟩
  · rw [remove_eq_filter]
    simp [List.mem_filter]
  · intro hS
    have h1 : remove S T = S.filter (fun U => decide (U ≠ T)) := by
      rw [remove_eq_filter, List.filter_congr]
      intro U hU
      simp [hS U hU]
    refine ⟨h1, ?_, ?_⟩
    · intro U hU
      rw [h1]
      exact List.count_filter (by simp [hU])
    · intro hT
      rw [h1, List.filter_eq_self]
      intro U hU
      have : U ≠ T := fun e => hT (e ▸ hU)
      simp [this]

/-- Witness of C6 (amended) on `type_list<int, int, double>`, which holds no sentinel,
with `int`. -/
theorem C6_remove_tag_witness :
    (∀ U ∈ [int_t, int_t, double_t], detail.is_ignore U = false)
    ∧ (remove [int_t, int_t, double_t] int_t
          = [int_t, int_t, double_t].filter (fun U => decide (U ≠ int_t))
        ∧ (∀ U, U ≠ int_t →
            (remove [int_t, int_t, double_t] int_t).count U
              = [int_t, int_t, double_t].count U)
        ∧ (int_t ∉ [int_t, int_t, double_t] →
            remove [int_t, int_t, double_t] int_t = [int_t, int_t, double_t])) :=
  ⟨by decide, (C6_remove_tag [int_t, int_t, double_t] int_t).2.2 (by decide)⟩

/-- C7 (counterexample): on `type_list<ignore_t, int, double>` the call
`remove(index<1>, index<2>)` does not return the elements outside `[1, 2)`: the sentinel
at position 0 is dropped as well and the size is 1, not 2. -/
theorem C7_remove_index_drops_sentinel :
    (1 : Nat) < 2 ∧ 2 ≤ size [detail.ignore_t, int_t, double_t]
    ∧ remove_index [detail.ignore_t, int_t, double_t] 1 2 = some [double_t]
    ∧ remove_index [detail.ignore_t, int_t, double_t] 1 2
        ≠ some ([detail.ignore_t, int_t, double_t].take 1
            ++ [detail.ignore_t, int_t, double_t].drop 2)
    ∧ size [double_t] ≠ size [detail.ignore_t, int_t, double_t] - (2 - 1) := by
  decide

/-- C7 (amended): for a list `S` that fits `size_t` and indices `S0 < E0 <= size()`,
`remove(S0, E0)` returns the first `S0` elements followed by the elements from position
`E0` on, without those that are a cv/ref-qualified `detail::ignore_t`; the omitted end
index is `S0 + 1`.  When no element of `S` is a cv/ref-qualified `detail::ignore_t`, the
result is exactly the elements outside `[S0, E0)` in order, its size is
`size() - (E0 - S0)`, and `remove(S0)` removes exactly the element at position `S0`. -/
theorem C7_remove_index (S : type_list_t) (S0 E0 : Nat) (hS : S.length < SIZE_MOD)
    (h1 : S0 < E0) (h2 : E0 ≤ size S) :
    remove_index S S0 E0
      = some ((S.take S0 ++ S.drop E0).filter (fun T => !detail.is_ignore T))
    ∧ remove_at S S0 = remove_index S S0 (S0 + 1)
    ∧ ((∀ U ∈ S, detail.is_ignore U = false) →
        remove_index S S0 E0 = some (S.take S0 ++ S.drop E0)
        ∧ size (S.take S0 ++ S.drop E0) = size S - (E0 - S0)
        ∧ remove_at S S0 = some (S.eraseIdx S0)) := by
  unfold size at h2
  have hadd : size_add S0 1 = S0 + 1 := size_add_one_of_lt S0 (by omega)
  refine ⟨remove_index_eq S S0 E0 hS h1 h2, ?_, ?_⟩
  · unfold remove_at
    rw [hadd]
  · intro hfree
    have hfree2 : ∀ A B : Nat, ∀ U ∈ S.take A ++ S.drop B, detail.is_ignore U = false := by
      intro A B U hU
      rcases List.mem_append.1 hU with h | h
      · exact hfree U (List.mem_of_mem_take h)
      · exact hfree U (List.mem_of_mem_drop h)
    refine ⟨?_, ?_, ?_⟩
    · rw [remove_index_eq S S0 E0 hS h1 h2, filter_not_ignore_of_forall _ (hfree2 S0 E0)]
    · simp only [size, List.length_append, List.length_take, List.length_drop]
      omega
    · unfold remove_at
      rw [hadd, remove_index_eq S S0 (S0 + 1) hS (by omega) (by omega),
        filter_not_ignore_of_forall _ (hfree2 S0 (S0 + 1)), List.eraseIdx_eq_take_drop_succ]

/-- Witness of C7 (amended) on `type_list<int, double, short, float>`, which holds no
sentinel, with the range `[1, 3)`. -/
theorem C7_remove_index_witness :
    [int_t, double_t, short_t, float_t].length < SIZE_MOD
    ∧ (1 : Nat) < 3 ∧ 3 ≤ size [int_t, double_t, short_t, float_t]
    ∧ (∀ U ∈ [int_t, double_t, short_t, float_t], detail.is_ignore U = false)
    ∧ (remove_index [int_t, double_t, short_t, float_t] 1 3
          = some ([int_t, double_t, short_t, float_t].take 1
              ++ [int_t, double_t, short_t, float_t].drop 3)
        ∧ size ([int_t, double_t, short_t, float_t].take 1
              ++ [int_t, double_t, short_t, float_t].drop 3)
            = size [int_t, double_t, short_t, float_t] - (3 - 1)
        ∧ remove_at [int_t, double_t, short_t, float_t] 1
            = some ([int_t, double_t, short_t, float_t].eraseIdx 1)) :=
  ⟨by decide, by decide, by decide, by decide,
    (C7_remove_index [int_t, double_t, short_t, float_t] 1 3
      (by decide) (by decide) (by decide)).2.2 (by decide)⟩

/-- C8 (counterexample): `std::is_const` is true for `const ignore_t`, yet
`type_list<const ignore_t, int>.filter(func<std::is_const>)` is empty: the result is not
the list-filter of the list by the predicate. -/
theorem C8_filter_drops_sentinel :
    is_const (add_const detail.ignore_t) = true
    ∧ filter [add_const detail.ignore_t, int_t] is_const = []
    ∧ filter [add_const detail.ignore_t, int_t] is_const
        ≠ [add_const detail.ignore_t, int_t].filter is_const := by
  decide

/-- C8 (amended): `filter(F)` is never rejected and returns exactly the elements of `S`
for which `F` is true and which are not a cv/ref-qualified `detail::ignore_t`, in their
original order and with their multiplicities; it is empty when no element satisfies
`F`; when no element of `S` is a cv/ref-qualified `detail::ignore_t`, it equals the
list-filter of `S` by `F`. -/
theorem C8_filter (S : type_list_t) (F : Descriptor → Bool) :
    filter S F = S.filter (fun U => F U && !detail.is_ignore U)
    ∧ ((∀ U ∈ S, F U = false) → filter S F = [])
    ∧ ((∀ U ∈ S, detail.is_ignore U = false) → filter S F = S.filter F) := by
  refine ⟨filter_eq_filter S F, ?_, ?_⟩
  · intro hF
    rw [filter_eq_filter, List.filter_eq_nil_iff]
    intro U hU
    simp [hF U hU]
  · intro hS
    rw [filter_eq_filter, List.filter_congr]
    intro U hU
    simp [hS U hU]

/-- Witness of C8 (amended) on `type_list<int, const double, float>`, which holds no
sentinel, with `std::is_const`, and on `type_list<int, float>`, where no element
satisfies `std::is_const`. -/
theorem C8_filter_witness :
    (∀ U ∈ [int_t, add_const double_t, float_t], detail.is_ignore U = false)
    ∧ filter [int_t, add_const double_t, float_t] is_const
        = [int_t, add_const double_t, float_t].filter is_const
    ∧ (∀ U ∈ [int_t, float_t], is_const U = false)
    ∧ filter [int_t, float_t] is_const = [] :=
  ⟨by decide, (C8_filter [int_t, add_const double_t, float_t] is_const).2.2 (by decide),
    by decide, (C8_filter [int_t, float_t] is_const).2.1 (by decide)⟩

/-- C9 (counterexample): on `type_list<ignore_t, int, const double>` the call
`filter_range(index<1>, index<2>, func<std::is_const>)` does not keep the element at
position 0, which lies outside `[1, 2)`. -/
theorem C9_filter_range_drops_sentinel :
    (1 : Nat) < 2 ∧ 2 ≤ size [detail.ignore_t, int_t, add_const double_t]
    ∧ filter_range [detail.ignore_t, int_t, add_const double_t] 1 2 is_const
        = some [add_const double_t]
    ∧ filter_range [detail.ignore_t, int_t, add_const double_t] 1 2 is_const
        ≠ some ([detail.ignore_t, int_t, add_const double_t].take 1
            ++ ((([detail.ignore_t, int_t, add_const double_t].take 2).drop 1).filter
                  is_const
            ++ [detail.ignore_t, int_t, add_const double_t].drop 2)) := by
  decide

/-- C9 (amended): for a list `S` that fits `size_t` and indices `S0 < E0 <= size()`,
`filter_range(S0, E0, F)` keeps, in original order, the elements at positions outside
`[S0, E0)` and, among positions inside `[S0, E0)`, those for which `F` is true, in both
cases without the elements that are a cv/ref-qualified `detail::ignore_t`; when no
element of `S` is a cv/ref-qualified `detail::ignore_t`, every element outside the range
is kept and inside the range exactly those for which `F` is true. -/
theorem C9_filter_range (S : type_list_t) (S0 E0 : Nat) (F : Descriptor → Bool)
    (hS : S.length < SIZE_MOD) (h1 : S0 < E0) (h2 : E0 ≤ size S) :
    filter_range S S0 E0 F
      = some ((S.take S0 ++ (((S.take E0).drop S0).filter F ++ S.drop E0)).filter
          (fun T => !detail.is_ignore T))
    ∧ ((∀ U ∈ S, detail.is_ignore U = false) →
        filter_range S S0 E0 F
          = some (S.take S0 ++ (((S.take E0).drop S0).filter F ++ S.drop E0))) := by
  unfold size at h2
  refine ⟨filter_range_eq S S0 E0 F hS h1 h2, ?_⟩
  intro hfree
  rw [filter_range_eq S S0 E0 F hS h1 h2, filter_not_ignore_of_forall]
  intro U hU
  rcases List.mem_append.1 hU with h | h
  · exact hfree U (List.mem_of_mem_take h)
  · rcases List.mem_append.1 h with h | h
    · exact hfree U (List.mem_of_mem_take (List.mem_of_mem_drop (List.mem_of_mem_filter h)))
    · exact hfree U (List.mem_of_mem_drop h)

/-- Witness of C9 (amended) on `type_list<int, const double, float>`, which holds no
sentinel, with the range `[1, 3)` and `std::is_const`. -/
theorem C9_filter_range_witness :
    [int_t, add_const double_t, float_t].length < SIZE_MOD
    ∧ (1 : Nat) < 3 ∧ 3 ≤ size [int_t, add_const double_t, float_t]
    ∧ (∀ U ∈ [int_t, add_const double_t, float_t], detail.is_ignore U = false)
    ∧ filter_range [int_t, add_const double_t, float_t] 1 3 is_const
        = some ([int_t, add_const double_t, float_t].take 1
            ++ ((([int_t, add_const double_t, float_t].take 3).drop 1).filter is_const
            ++ [int_t, add_const double_t, float_t].drop 3)) :=
  ⟨by decide, by decide, by decide, by decide,
    (C9_filter_range [int_t, add_const double_t, float_t] 1 3 is_const
      (by decide) (by decide) (by decide)).2 (by decide)⟩

/-- C10: `apply(F)` returns a list of the same length as `S` whose element at every
position `i` is `F` of the element of `S` at position `i`; it equals the list-map of `S`
by `F`, and the empty list maps to the empty list. -/
theorem C10_apply (S : type_list_t) (F : Descriptor → Descriptor) :
    size (apply S F) = size S
    ∧ (∀ i, at_ (apply S F) i = (at_ S i).map F)
    ∧ apply S F = S.map F
    ∧ apply [] F = [] := by
  refine ⟨?_, ?_, apply_eq_map S F, rfl⟩
  · simp [size, apply_eq_map]
  · intro i
    rw [at_eq, at_eq, apply_eq_map, List.get?_eq_getElem?, List.get?_eq_getElem?,
      List.getElem?_map]

/-- C11 (counterexample): on `type_list<ignore_t, int>` the call
`apply(index<1>, func<std::add_const>)` returns `<const int>`: the length is 1, not 2,
and position 0 no longer holds the element of the original list. -/
theorem C11_apply_index_drops_sentinel :
    1 < size [detail.ignore_t, int_t]
    ∧ apply_index [detail.ignore_t, int_t] 1 add_const = some [add_const int_t]
    ∧ size [add_const int_t] ≠ size [detail.ignore_t, int_t]
    ∧ at_ [add_const int_t] 0 ≠ at_ [detail.ignore_t, int_t] 0 := by
  decide

/-- C11 (amended): `apply(index<I>, F)` is rejected exactly when `I >= size()`.  When
`I < size()` it returns the list obtained from `S` by replacing the element at
position `I` by `F` of it, without the elements that are a cv/ref-qualified
`detail::ignore_t`; when that list holds no cv/ref-qualified `detail::ignore_t`, the
result has the length of `S`, holds `F` of the element of `S` at position `I`, and
holds the element of `S` at every other position. -/
theorem C11_apply_index (S : type_list_t) (I : Nat) (F : Descriptor → Descriptor) :
    (apply_index S I F = none ↔ size S ≤ I)
    ∧ ∀ h : I < S.length,
        apply_index S I F
          = some ((S.set I (F (S.get ⟨I, h⟩))).filter (fun T => !detail.is_ignore T))
        ∧ ((∀ U ∈ S.set I (F (S.get ⟨I, h⟩)), detail.is_ignore U = false) →
            apply_index S I F = some (S.set I (F (S.get ⟨I, h⟩)))
            ∧ size (S.set I (F (S.get ⟨I, h⟩))) = size S
            ∧ at_ (S.set I (F (S.get ⟨I, h⟩))) I = some (F (S.get ⟨I, h⟩))
            ∧ ∀ j, j ≠ I → at_ (S.set I (F (S.get ⟨I, h⟩))) j = at_ S j) := by
  refine ⟨?_, ?_⟩
  · unfold size
    by_cases h : I < S.length
    · rw [apply_index_eq S I F h]
      simp only [reduceCtorEq, false_iff]
      omega
    · have h2 : ¬ (index_in_range S I = true) := fun h3 => h ((index_in_range_iff S I).1 h3)
      unfold apply_index
      rw [if_neg h2]
      simp only [true_iff]
      omega
  · intro h
    refine ⟨apply_index_eq S I F h, ?_⟩
    intro hfree
    refine ⟨?_, ?_, ?_, ?_⟩
    · rw [apply_index_eq S I F h, filter_not_ignore_of_forall _ hfree]
    · simp [size]
    · rw [at_eq, List.get?_eq_getElem?, List.getElem?_set]
      simp [h]
    · intro j hj
      rw [at_eq, at_eq, List.get?_eq_getElem?, List.get?_eq_getElem?,
        List.getElem?_set_ne (fun e => hj e.symm)]

/-- Witness of C11 (amended) on `type_list<int, double>` with index 0 and
`std::add_const`. -/
theorem C11_apply_index_witness :
    ∃ h : 0 < [int_t, double_t].length,
      (∀ U ∈ [int_t, double_t].set 0 (add_const ([int_t, double_t].get ⟨0, h⟩)),
        detail.is_ignore U = false)
      ∧ apply_index [int_t, double_t] 0 add_const
          = some ([int_t, double_t].set 0 (add_const ([int_t, double_t].get ⟨0, h⟩)))
      ∧ size ([int_t, double_t].set 0 (add_const ([int_t, double_t].get ⟨0, h⟩)))
          = size [int_t, double_t] :=
  ⟨by decide, by decide,
    (((C11_apply_index [int_t, double_t] 0 add_const).2 (by decide)).2 (by decide)).1,
    (((C11_apply_index [int_t, double_t] 0 add_const).2 (by decide)).2 (by decide)).2.1⟩

/-- C12 (counterexample): on `type_list<ignore_t, int, double>` the call
`apply_range(index<1>, index<2>, func<std::add_const>)` returns `<const int, double>`:
the length is 2, not 3, and position 0, outside the range, is not unchanged. -/
theorem C12_apply_range_drops_sentinel :
    (1 : Nat) < 2 ∧ 2 ≤ size [detail.ignore_t, int_t, double_t]
    ∧ apply_range [detail.ignore_t, int_t, double_t] 1 2 add_const
        = some [add_const int_t, double_t]
    ∧ size [add_const int_t, double_t] ≠ size [detail.ignore_t, int_t, double_t]
    ∧ at_ [add_const int_t, double_t] 0 ≠ at_ [detail.ignore_t, int_t, double_t] 0 := by
  decide

/-- C12 (amended): for a list `S` that fits `size_t` and indices `S0 < E0 <= size()`,
`apply_range(S0, E0, F)` returns the list in which every element at a position in
`[S0, E0)` is replaced by `F` of it, without the elements that are a cv/ref-qualified
`detail::ignore_t`; when that list holds no cv/ref-qualified `detail::ignore_t`, the
result has the length of `S`, every position in `[S0, E0)` holds `F` of the element of
`S` there, and every other position holds the element of `S`. -/
theorem C12_apply_range (S : type_list_t) (S0 E0 : Nat) (F : Descriptor → Descriptor)
    (hS : S.length < SIZE_MOD) (h1 : S0 < E0) (h2 : E0 ≤ size S) :
    apply_range S S0 E0 F
      = some ((S.take S0 ++ (((S.take E0).drop S0).map F ++ S.drop E0)).filter
          (fun T => !detail.is_ignore T))
    ∧ ((∀ U ∈ S.take S0 ++ (((S.take E0).drop S0).map F ++ S.drop E0),
          detail.is_ignore U = false) →
        apply_range S S0 E0 F
          = some (S.take S0 ++ (((S.take E0).drop S0).map F ++ S.drop E0))
        ∧ size (S.take S0 ++ (((S.take E0).drop S0).map F ++ S.drop E0)) = size S
        ∧ ∀ j, at_ (S.take S0 ++ (((S.take E0).drop S0).map F ++ S.drop E0)) j
            = if S0 ≤ j ∧ j < E0 then (at_ S j).map F else at_ S j) := by
  unfold size at h2
  refine ⟨apply_range_eq S S0 E0 F hS h1 h2, ?_⟩
  intro hfree
  refine ⟨?_, ?_, ?_⟩
  · rw [apply_range_eq S S0 E0 F hS h1 h2, filter_not_ignore_of_forall _ hfree]
  · simp only [size, List.length_append, List.length_take, List.length_drop, List.length_map]
    omega
  · intro j
    exact apply_range_pack_at S S0 E0 F (by omega) j

/-- Witness of C12 (amended) on `type_list<int, double, float, short, long>` with the
range `[1, 3)` and `std::add_const`. -/
theorem C12_apply_range_witness :
    [int_t, double_t, float_t, short_t, long_t].length < SIZE_MOD
    ∧ (1 : Nat) < 3 ∧ 3 ≤ size [int_t, double_t, float_t, short_t, long_t]
    ∧ (∀ U ∈ [int_t, double_t, float_t, short_t, long_t].take 1
          ++ ((([int_t, double_t, float_t, short_t, long_t].take 3).drop 1).map add_const
          ++ [int_t, double_t, float_t, short_t, long_t].drop 3),
        detail.is_ignore U = false)
    ∧ apply_range [int_t, double_t, float_t, short_t, long_t] 1 3 add_const
        = some ([int_t, double_t, float_t, short_t, long_t].take 1
          ++ ((([int_t, double_t, float_t, short_t, long_t].take 3).drop 1).map add_const
          ++ [int_t, double_t, float_t, short_t, long_t].drop 3)) :=
  ⟨by decide, by decide, by decide, by decide,
    ((C12_apply_range [int_t, double_t, float_t, short_t, long_t] 1 3 add_const
      (by decide) (by decide) (by decide)).2 (by decide)).1⟩

/-- C13 (counterexample): `type_list<int>.append(tag<ignore_t>)` and
`type_list<int> + tag<ignore_t>` return `<int>`: the size does not grow and
`count_of(tag<ignore_t>)` stays 0. -/
theorem C13_append_sentinel_unchanged :
    append [int_t] detail.ignore_t = [int_t]
    ∧ operator_plus [int_t] detail.ignore_t = [int_t]
    ∧ size (append [int_t] detail.ignore_t) ≠ size [int_t] + 1
    ∧ count_of (append [int_t] detail.ignore_t) detail.ignore_t
        ≠ count_of [int_t] detail.ignore_t + 1 := by
  decide

/-- C13 (amended): `append(tag<T>)` and `S + tag<T>` return the same list.  For every
`T` that is not a cv/ref-qualified `detail::ignore_t` the result is `S` followed by `T`:
it has `size() + 1` elements, its last element is `T`, its first `size()` elements are
those of `S` in order, and `count_of(T)` grows by exactly one, whether or not `T` is
already in `S`.  For a cv/ref-qualified `detail::ignore_t` the result is `S`. -/
theorem C13_append_tag (S : type_list_t) (T : Descriptor) :
    append S T = operator_plus S T
    ∧ (detail.is_ignore T = true → append S T = S)
    ∧ (detail.is_ignore T = false →
        append S T = S ++ [T]
        ∧ size (append S T) = size S + 1
        ∧ at_ (append S T) (size S) = some T
        ∧ (∀ i, i < size S → at_ (append S T) i = at_ S i)
        ∧ count_of (append S T) T = count_of S T + 1) := by
  refine ⟨rfl, ?_, ?_⟩
  · intro h
    simp [append, h]
  · intro h
    have e : append S T = S ++ [T] := by simp [append, h]
    rw [e]
    refine ⟨rfl, by simp [size], ?_, ?_, ?_⟩
    · rw [at_eq, List.get?_eq_getElem?]
      simp [size]
    · intro i hi
      unfold size at hi
      rw [at_eq, at_eq, List.get?_eq_getElem?, List.get?_eq_getElem?,
        List.getElem?_append_left hi]
    · unfold count_of
      rw [type_list_count_of_v_eq, type_list_count_of_v_eq]
      simp

/-- Witness of C13 (amended) on `type_list<int, double>` and `double`, which is already
in the list. -/
theorem C13_append_tag_witness :
    detail.is_ignore double_t = false
    ∧ (append [int_t, double_t] double_t = [int_t, double_t] ++ [double_t]
      ∧ size (append [int_t, double_t] double_t) = size [int_t, double_t] + 1
      ∧ at_ (append [int_t, double_t] double_t) (size [int_t, double_t]) = some double_t
      ∧ (∀ i, i < size [int_t, double_t] →
          at_ (append [int_t, double_t] double_t) i = at_ [int_t, double_t] i)
      ∧ count_of (append [int_t, double_t] double_t) double_t
          = count_of [int_t, double_t] double_t + 1) :=
  ⟨by decide, (C13_append_tag [int_t, double_t] double_t).2.2 (by decide)⟩

/-- C14 (counterexample): `type_list<int>.append(type_list<ignore_t, double>)` is
`<int, double>`, not the concatenation `<int, ignore_t, double>`, and its size is 2,
not 1 + 2; appending to the empty list does not return the other list. -/
theorem C14_append_list_drops_sentinel :
    append_list [int_t] [detail.ignore_t, double_t] = [int_t, double_t]
    ∧ operator_plus_list [int_t] [detail.ignore_t, double_t] = [int_t, double_t]
    ∧ append_list [int_t] [detail.ignore_t, double_t]
        ≠ [int_t] ++ [detail.ignore_t, double_t]
    ∧ size (append_list [int_t] [detail.ignore_t, double_t])
        ≠ size [int_t] + size [detail.ignore_t, double_t]
    ∧ append_list [] [detail.ignore_t, double_t] ≠ [detail.ignore_t, double_t] := by
  decide

/-- C14 (amended): `S.append(O)` and `S + O` both equal `S` followed by the elements of
`O` that are not a cv/ref-qualified `detail::ignore_t`, in order; appending the empty
list returns `S`.  When no element of `O` is a cv/ref-qualified `detail::ignore_t`, the
result is the concatenation of `S` and `O`, of size `S.size() + O.size()`, and appending
`O` to the empty list returns `O`. -/
theorem C14_append_list (S O : type_list_t) :
    append_list S O = S ++ O.filter (fun T => !detail.is_ignore T)
    ∧ operator_plus_list S O = append_list S O
    ∧ append_list S [] = S
    ∧ ((∀ U ∈ O, detail.is_ignore U = false) →
        append_list S O = S ++ O
        ∧ size (append_list S O) = size S + size O
        ∧ append_list [] O = O) := by
  refine ⟨append_list_eq S O, rfl, rfl, ?_⟩
  intro hfree
  have e : ∀ A : type_list_t, append_list A O = A ++ O := by
    intro A
    rw [append_list_eq, filter_not_ignore_of_forall O hfree]
  refine ⟨e S, ?_, ?_⟩
  · rw [e S]
    simp [size]
  · rw [e []]
    rfl

/-- Witness of C14 (amended) on `type_list<short>` and `type_list<int, double>`. -/
theorem C14_append_list_witness :
    (∀ U ∈ [int_t, double_t], detail.is_ignore U = false)
    ∧ (append_list [short_t] [int_t, double_t] = [short_t] ++ [int_t, double_t]
      ∧ size (append_list [short_t] [int_t, double_t])
          = size [short_t] + size [int_t, double_t]
      ∧ append_list [] [int_t, double_t] = [int_t, double_t]) :=
  ⟨by decide, (C14_append_list [short_t] [int_t, double_t]).2.2.2 (by decide)⟩

/-- C15 (counterexample): no lists `S`, `T1`, `T2` make `S.append(T1).append(T2)` and
`S.append(T1.append(T2))` unequal. -/
theorem C15_no_non_associative_triple :
    ¬ ∃ S T1 T2 : type_list_t,
        append_list (append_list S T1) T2 ≠ append_list S (append_list T1 T2) := by
  rintro ⟨S, T1, T2, h⟩
  exact h (append_list_assoc S T1 T2)

/-- C15 (amended): appending lists is associative: for all lists `S`, `T1` and `T2`,
`S.append(T1).append(T2)` and `S.append(T1.append(T2))` are the same list, and compare
equal under `==`. -/
theorem C15_append_list_assoc (S T1 T2 : type_list_t) :
    append_list (append_list S T1) T2 = append_list S (append_list T1 T2)
    ∧ operator_eq (append_list (append_list S T1) T2) (append_list S (append_list T1 T2))
        = true
    ∧ operator_ne (append_list (append_list S T1) T2) (append_list S (append_list T1 T2))
        = false := by
  have h := append_list_assoc S T1 T2
  have h2 := (operator_eq_iff _ _).2 h
  exact ⟨h, h2, by simp [operator_ne, h2]⟩

/-- C16 (counterexample): `type_list<int>.prepend(tag<ignore_t>)` is `<int>`, not
`<ignore_t, int>`, and `type_list<ignore_t, int>.prepend(type_list<double>)` is
`<double, int>`, not `<double, ignore_t, int>`. -/
theorem C16_prepend_drops_sentinel :
    prepend [int_t] detail.ignore_t = [int_t]
    ∧ prepend [int_t] detail.ignore_t ≠ detail.ignore_t :: [int_t]
    ∧ prepend_list [detail.ignore_t, int_t] [double_t] = [double_t, int_t]
    ∧ prepend_list [detail.ignore_t, int_t] [double_t]
        ≠ [double_t] ++ [detail.ignore_t, int_t] := by
  decide

/-- C16 (amended): `prepend(tag<T>)` returns `T` followed by `S` for every `T` that is
not a cv/ref-qualified `detail::ignore_t`, and `S` itself otherwise.  `S.prepend(O)`
returns the elements of `O` in order followed by the elements of `S` that are not a
cv/ref-qualified `detail::ignore_t`, in order; it always equals `O.append(S)`.  When no
element of `S` is a cv/ref-qualified `detail::ignore_t`, `S.prepend(O)` is `O` followed
by `S`. -/
theorem C16_prepend (S O : type_list_t) (T : Descriptor) :
    (detail.is_ignore T = false → prepend S T = T :: S)
    ∧ (detail.is_ignore T = true → prepend S T = S)
    ∧ prepend_list S O = O ++ S.filter (fun U => !detail.is_ignore U)
    ∧ prepend_list S O = append_list O S
    ∧ ((∀ U ∈ S, detail.is_ignore U = false) → prepend_list S O = O ++ S) := by
  refine ⟨?_, ?_, prepend_list_eq S O, rfl, ?_⟩
  · intro h
    simp [prepend, h]
  · intro h
    simp [prepend, h]
  · intro hfree
    rw [prepend_list_eq, filter_not_ignore_of_forall S hfree]

/-- Witness of C16 (amended) on `type_list<short>`, `type_list<int, double>` and
`double`. -/
theorem C16_prepend_witness :
    detail.is_ignore double_t = false
    ∧ prepend [short_t] double_t = double_t :: [short_t]
    ∧ (∀ U ∈ [short_t], detail.is_ignore U = false)
    ∧ prepend_list [short_t] [int_t, double_t] = [int_t, double_t] ++ [short_t] :=
  ⟨by decide, (C16_prepend [short_t] [int_t, double_t] double_t).1 (by decide),
    by decide, (C16_prepend [short_t] [int_t, double_t] double_t).2.2.2.2 (by decide)⟩

/-- C17: `A == B` is true if and only if `A` and `B` have the same length and the same
descriptor at every position; lists of different lengths are unequal, lists with the
same elements in a different order are unequal, and `A != B` is the negation of
`A == B`. -/
theorem C17_operator_eq (A B : type_list_t) :
    (operator_eq A B = true ↔ size A = size B ∧ ∀ i, i < size A → at_ A i = at_ B i)
    ∧ (size A ≠ size B → operator_eq A B = false)
    ∧ (A.Perm B → A ≠ B → operator_eq A B = false)
    ∧ operator_ne A B = !(operator_eq A B) := by
  have hne : A ≠ B → operator_eq A B = false := by
    intro h
    cases hv : operator_eq A B with
    | false => rfl
    | true => exact absurd ((operator_eq_iff A B).1 hv) h
  refine ⟨?_, ?_, ?_, rfl⟩
  · rw [operator_eq_iff]
    constructor
    · intro h
      subst h
      exact ⟨rfl, fun _ _ => rfl⟩
    · rintro ⟨hlen, hat⟩
      exact eq_of_at_eq A B hlen hat
  · intro h
    exact hne (fun e => h (by rw [e]))
  · intro _ h
    exact hne h

/-- Witness of C17 on `type_list<int, double>` against `type_list<double, int>` (same
elements, different order) and on `type_list<int>` against `type_list<int, int>`
(different lengths). -/
theorem C17_operator_eq_witness :
    [int_t, double_t].Perm [double_t, int_t] ∧ [int_t, double_t] ≠ [double_t, int_t]
    ∧ operator_eq [int_t, double_t] [double_t, int_t] = false
    ∧ size [int_t] ≠ size [int_t, int_t]
    ∧ operator_eq [int_t] [int_t, int_t] = false :=
  ⟨List.Perm.swap double_t int_t [], by decide,
    (C17_operator_eq [int_t, double_t] [double_t, int_t]).2.2.1
      (List.Perm.swap double_t int_t []) (by decide),
    by decide,
    (C17_operator_eq [int_t] [int_t, int_t]).2.1 (by decide)⟩

/-- C18: `count_of(tag<T>)` is defined for every list and equals the number of
positions of `S` holding exactly `T`: it is the number of occurrences of `T`, 0 for the
empty list and for an absent `T`, and 2 or more exactly when `T` is duplicated. -/
theorem C18_count_of (S : type_list_t) (T : Descriptor) :
    count_of S T
      = ((List.range (size S)).filter (fun i => decide (at_ S i = some T))).length
    ∧ count_of S T = S.count T
    ∧ count_of [] T = 0
    ∧ (count_of S T = 0 ↔ T ∉ S)
    ∧ (2 ≤ count_of S T ↔ List.Duplicate T S) := by
  have e : count_of S T = S.count T := type_list_count_of_v_eq T S
  refine ⟨?_, e, rfl, ?_, ?_⟩
  · rw [e, count_eq_positions]
    simp only [size, at_eq, List.get?_eq_getElem?]
  · rw [e, List.count_eq_zero]
  · rw [e, List.duplicate_iff_two_le_count]

/-- C19: `contains(tag<T>)` is true if and only if `T` occurs at least once in `S` by
exact descriptor equality, that is if and only if some position holds `T`, and if and
only if `count_of(tag<T>) >= 1`; it is false on the empty list. -/
theorem C19_contains (S : type_list_t) (T : Descriptor) :
    (contains S T = true ↔ T ∈ S)
    ∧ (contains S T = true ↔ ∃ i, at_ S i = some T)
    ∧ (contains S T = true ↔ 1 ≤ count_of S T)
    ∧ contains [] T = false := by
  have e : count_of S T = S.count T := type_list_count_of_v_eq T S
  refine ⟨contains_iff S T, ?_, ?_, rfl⟩
  · rw [contains_iff, List.mem_iff_get?]
    simp only [at_eq]
  · rw [contains_iff, e]
    exact (List.count_pos_iff).symm

/-- Witness of C19 on `type_list<int, double>`: `double` is contained, `float` is not. -/
theorem C19_contains_witness :
    double_t ∈ [int_t, double_t] ∧ contains [int_t, double_t] double_t = true
    ∧ 1 ≤ count_of [int_t, double_t] double_t :=
  ⟨by decide, (C19_contains [int_t, double_t] double_t).1.2 (by decide),
    (C19_contains [int_t, double_t] double_t).2.2.1.1
      ((C19_contains [int_t, double_t] double_t).1.2 (by decide))⟩

/-- C20: `all_of(F)` is true if and only if `F` is true for every element of `S`; it is
true for the empty list. -/
theorem C20_all_of (S : type_list_t) (F : Descriptor → Bool) :
    (all_of S F = true ↔ ∀ T ∈ S, F T = true)
    ∧ all_of [] F = true :=
  ⟨all_of_iff S F, rfl⟩

/-- Witness of C20 on `type_list<const int, const double>` and `std::is_const`. -/
theorem C20_all_of_witness :
    (∀ T ∈ [add_const int_t, add_const double_t], is_const T = true)
    ∧ all_of [add_const int_t, add_const double_t] is_const = true :=
  ⟨by decide, (C20_all_of [add_const int_t, add_const double_t] is_const).1.2 (by decide)⟩

/-- C21: `one_of(F)` is true if and only if `F` is true for at least one element of
`S`; it stays true when several elements satisfy `F`, and it is false for the empty
list. -/
theorem C21_one_of (S : type_list_t) (F : Descriptor → Bool) :
    (one_of S F = true ↔ ∃ T ∈ S, F T = true)
    ∧ (2 ≤ S.countP F → one_of S F = true)
    ∧ one_of [] F = false := by
  refine ⟨one_of_iff S F, ?_, rfl⟩
  intro h
  rw [one_of_iff]
  exact List.countP_pos_iff.1 (by omega)

/-- Witness of C21 on `type_list<const int, const double>` and `std::is_const`, where
two elements satisfy the predicate. -/
theorem C21_one_of_witness :
    2 ≤ [add_const int_t, add_const double_t].countP is_const
    ∧ one_of [add_const int_t, add_const double_t] is_const = true :=
  ⟨by decide, (C21_one_of [add_const int_t, add_const double_t] is_const).2.1 (by decide)⟩

/-- C22: filtering is idempotent: `S.filter(F).filter(F)` is the list `S.filter(F)`, and
the two compare equal under `==`. -/
theorem C22_filter_idempotent (S : type_list_t) (F : Descriptor → Bool) :
    filter (filter S F) F = filter S F
    ∧ operator_eq (filter (filter S F) F) (filter S F) = true :=
  ⟨filter_idem S F, (operator_eq_iff _ _).2 (filter_idem S F)⟩

/-- C23: `pop_front()` and `pop_back()` are accepted on every list; on a non-empty list
they return the list without its first, respectively last, element, and on the empty
list each returns the empty list. -/
theorem C23_pop_front_pop_back (S : type_list_t) :
    pop_front S = some S.tail
    ∧ pop_back S = some S.dropLast
    ∧ (S ≠ [] →
        size S.tail = size S - 1
        ∧ (∀ i, at_ S.tail i = at_ S (i + 1))
        ∧ size S.dropLast = size S - 1
        ∧ (∀ i, i < size S - 1 → at_ S.dropLast i = at_ S i))
    ∧ pop_front [] = some []
    ∧ pop_back [] = some [] := by
  refine ⟨pop_front_eq_tail S, pop_back_eq_dropLast S, ?_, rfl, rfl⟩
  intro _
  refine ⟨by simp [size], ?_, by simp [size], ?_⟩
  · intro i
    rw [at_eq, at_eq, List.get?_eq_getElem?, List.get?_eq_getElem?, List.getElem?_tail]
  · intro i hi
    unfold size at hi
    rw [at_eq, at_eq, List.get?_eq_getElem?, List.get?_eq_getElem?, List.dropLast_eq_take,
      List.getElem?_take_of_lt hi]

/-- Witness of C23 on `type_list<int, float>`. -/
theorem C23_pop_front_pop_back_witness :
    [int_t, float_t] ≠ []
    ∧ pop_front [int_t, float_t] = some [float_t]
    ∧ pop_back [int_t, float_t] = some [int_t]
    ∧ (size [int_t, float_t].tail = size [int_t, float_t] - 1
      ∧ (∀ i, at_ [int_t, float_t].tail i = at_ [int_t, float_t] (i + 1))
      ∧ size [int_t, float_t].dropLast = size [int_t, float_t] - 1
      ∧ (∀ i, i < size [int_t, float_t] - 1 →
          at_ [int_t, float_t].dropLast i = at_ [int_t, float_t] i)) :=
  ⟨by decide, (C23_pop_front_pop_back [int_t, float_t]).1,
    (C23_pop_front_pop_back [int_t, float_t]).2.1,
    (C23_pop_front_pop_back [int_t, float_t]).2.2.1 (by decide)⟩

/-- C24: `S.size() == 0` if and only if `S.empty()`; `size()` is a total function and is
0 for the empty list. -/
theorem C24_size_empty (S : type_list_t) :
    (size S = 0 ↔ empty S = true)
    ∧ size S = S.length
    ∧ size [] = 0
    ∧ empty [] = true := by
  refine ⟨?_, rfl, rfl, rfl⟩
  simp [size, empty]

/-- C25: for a list that fits `size_t` and an end index `E0` of type `size_t`, the
members `apply_range(S0, E0, F)`, `filter_range(S0, E0, F)` and `remove(S0, E0)` share
one acceptance condition, whatever the order of `S0` and `E0`: the call is accepted if
and only if `S0 < size()` and `(E0 - 1) mod 2^64 < size()`, that is if and only if
`S0 < size()` and `1 <= E0 <= size()`; every call with `E0 == 0`, where `E0 - 1` wraps
to the maximum index, and every call on the empty list is rejected. -/
theorem C25_range_acceptance (S : type_list_t) (S0 E0 : Nat) (F : Descriptor → Descriptor)
    (P : Descriptor → Bool) (hS : S.length < SIZE_MOD) (hE : E0 < SIZE_MOD) :
    ((apply_range S S0 E0 F).isSome = true ↔ S0 < size S ∧ size_sub E0 1 < size S)
    ∧ ((filter_range S S0 E0 P).isSome = true ↔ S0 < size S ∧ size_sub E0 1 < size S)
    ∧ ((remove_index S S0 E0).isSome = true ↔ S0 < size S ∧ size_sub E0 1 < size S)
    ∧ size_sub E0 1 = (E0 + 2 ^ 64 - 1) % 2 ^ 64
    ∧ (S0 < size S ∧ size_sub E0 1 < size S ↔ S0 < size S ∧ 1 ≤ E0 ∧ E0 ≤ size S)
    ∧ size_sub 0 1 = npos
    ∧ (E0 = 0 → apply_range S S0 E0 F = none ∧ filter_range S S0 E0 P = none
        ∧ remove_index S S0 E0 = none)
    ∧ (S = [] → apply_range S S0 E0 F = none ∧ filter_range S S0 E0 P = none
        ∧ remove_index S S0 E0 = none) := by
  obtain ⟨ha, hf, hr⟩ := range_member_isSome S S0 E0 F P
  have hraw : range_assert S S0 E0 = true ↔ S0 < size S ∧ size_sub E0 1 < size S := by
    simp only [range_assert, Bool.and_eq_true, index_in_range_iff, size]
  have hiff := range_assert_iff S S0 E0 hS hE
  have hnone : range_assert S S0 E0 = false →
      apply_range S S0 E0 F = none ∧ filter_range S S0 E0 P = none
        ∧ remove_index S S0 E0 = none := by
    intro h
    simp [apply_range, filter_range, remove_index, h]
  refine ⟨by rw [ha]; exact hraw, by rw [hf]; exact hraw, by rw [hr]; exact hraw, ?_,
    hraw.symm.trans hiff, rfl, ?_, ?_⟩
  · rw [SIZE_MOD_eq] at hE
    simp only [size_sub, SIZE_MOD_eq]
    omega
  · intro h0
    apply hnone
    cases hv : range_assert S S0 E0 with
    | false => rfl
    | true =>
      have := hiff.1 hv
      omega
  · intro hnil
    apply hnone
    cases hv : range_assert S S0 E0 with
    | false => rfl
    | true =>
      have := hiff.1 hv
      rw [hnil] at this
      simp at this

/-- Witness of C25 on `type_list<int, double>`: the call with `S0 = 1`, `E0 = 0` is
rejected. -/
theorem C25_range_acceptance_witness :
    [int_t, double_t].length < SIZE_MOD ∧ (0 : Nat) < SIZE_MOD
    ∧ (apply_range [int_t, double_t] 1 0 add_const = none
      ∧ filter_range [int_t, double_t] 1 0 is_const = none
      ∧ remove_index [int_t, double_t] 1 0 = none) :=
  ⟨by decide, by decide,
    (C25_range_acceptance [int_t, double_t] 1 0 add_const is_const
      (by decide) (by decide)).2.2.2.2.2.2.1 rfl⟩

/-- C26 (counterexample): a sentinel is not dropped by every fold-based member:
`type_list<ignore_t>.append(type_list<int>)` is `<ignore_t, int>`,
`type_list<int>.prepend(type_list<ignore_t>)` is `<ignore_t, int>`, and the accepted
empty-range call `apply_range(index<2>, index<1>, F)` on `type_list<ignore_t, int, double>`
returns the list with its sentinel. -/
theorem C26_initial_list_keeps_sentinel :
    detail.is_ignore detail.ignore_t = true
    ∧ append_list [detail.ignore_t] [int_t] = [detail.ignore_t, int_t]
    ∧ detail.ignore_t ∈ append_list [detail.ignore_t] [int_t]
    ∧ prepend_list [int_t] [detail.ignore_t] = [detail.ignore_t, int_t]
    ∧ detail.ignore_t ∈ prepend_list [int_t] [detail.ignore_t]
    ∧ apply_range [detail.ignore_t, int_t, double_t] 2 1 add_const
        = some [detail.ignore_t, int_t, double_t] := by
  decide

/-- C26 (amended): `append(tag<T>)`, `prepend(tag<T>)` and `operator+(tag<T>)` return
the list unchanged exactly when `remove_cvref_t<T>` is `detail::ignore_t`; for every
other `T` the result has `size() + 1` elements.  The members that fold through
`operator+` drop the cv/ref-qualified `detail::ignore_t` among the elements they fold
in, and keep the list the fold starts from: `S.append(O)` is `S` followed by the
non-sentinel elements of `O`, `S.prepend(O)` is `O` followed by the non-sentinel
elements of `S`, and the results of `remove(tag<T>)`, `filter`, the indexed `apply`, and
of `apply_range`, `filter_range` and `remove(S0, E0)` with `S0 < E0` hold no
cv/ref-qualified `detail::ignore_t`, whether it came from `S` or from the transform. -/
theorem C26_sentinel (S O : type_list_t) (T : Descriptor) (F : Descriptor → Descriptor)
    (P : Descriptor → Bool) (I S0 E0 : Nat) :
    (append S T = S ↔ remove_cvref T = detail.ignore_t)
    ∧ (prepend S T = S ↔ remove_cvref T = detail.ignore_t)
    ∧ (operator_plus S T = S ↔ remove_cvref T = detail.ignore_t)
    ∧ (remove_cvref T ≠ detail.ignore_t →
        size (append S T) = size S + 1 ∧ size (prepend S T) = size S + 1
        ∧ size (operator_plus S T) = size S + 1)
    ∧ append_list S O = S ++ O.filter (fun U => !detail.is_ignore U)
    ∧ prepend_list S O = O ++ S.filter (fun U => !detail.is_ignore U)
    ∧ (∀ U ∈ remove S T, detail.is_ignore U = false)
    ∧ (∀ U ∈ filter S P, detail.is_ignore U = false)
    ∧ (∀ R, apply_index S I F = some R → ∀ U ∈ R, detail.is_ignore U = false)
    ∧ (S0 < E0 →
        (∀ R, apply_range S S0 E0 F = some R → ∀ U ∈ R, detail.is_ignore U = false)
        ∧ (∀ R, filter_range S S0 E0 P = some R → ∀ U ∈ R, detail.is_ignore U = false)
        ∧ (∀ R, remove_index S S0 E0 = some R → ∀ U ∈ R, detail.is_ignore U = false)) := by
  obtain ⟨ha, hp, ho⟩ := tag_member_unchanged_iff S T
  refine ⟨ha.trans (is_ignore_iff T), hp.trans (is_ignore_iff T), ho.trans (is_ignore_iff T),
    ?_, append_list_eq S O, prepend_list_eq S O, ?_, ?_,
    apply_index_result_sentinel_free S I F, range_results_sentinel_free S S0 E0 F P⟩
  · intro h
    have h2 : detail.is_ignore T = false := by
      cases hv : detail.is_ignore T with
      | false => rfl
      | true => exact absurd ((is_ignore_iff T).1 hv) h
    simp [append, prepend, operator_plus, h2, size]
  · intro U hU
    rw [remove_eq_filter] at hU
    have h2 := (List.mem_filter.1 hU).2
    simp only [Bool.and_eq_true] at h2
    simpa using h2.2
  · intro U hU
    rw [filter_eq_filter] at hU
    have h2 := (List.mem_filter.1 hU).2
    simp only [Bool.and_eq_true] at h2
    simpa using h2.2

/-- Witness of C26 (amended): appending `const ignore_t&` to `type_list<int>` leaves it
unchanged, appending `double` grows it by one, and
`apply_range(index<0>, index<1>, F)` with a transform into `ignore_t` drops the
transformed element of `type_list<int, double>`. -/
theorem C26_sentinel_witness :
    remove_cvref ⟨BaseType.ignore_t, true, false, RefQual.lvalue⟩ = detail.ignore_t
    ∧ append [int_t] ⟨BaseType.ignore_t, true, false, RefQual.lvalue⟩ = [int_t]
    ∧ remove_cvref double_t ≠ detail.ignore_t
    ∧ size (append [int_t] double_t) = size [int_t] + 1
    ∧ (0 : Nat) < 1
    ∧ apply_range [int_t, double_t] 0 1 (fun _ => detail.ignore_t) = some [double_t]
    ∧ (∀ U ∈ [double_t], detail.is_ignore U = false) :=
  ⟨by decide,
    (C26_sentinel [int_t] [] ⟨BaseType.ignore_t, true, false, RefQual.lvalue⟩
      add_const is_const 0 0 1).1.2 (by decide),
    by decide,
    ((C26_sentinel [int_t] [] double_t add_const is_const 0 0 1).2.2.2.1 (by decide)).1,
    by decide, by decide,
    ((C26_sentinel [int_t, double_t] [] int_t (fun _ => detail.ignore_t) is_const 0 0 1
      ).2.2.2.2.2.2.2.2.2 (by decide)).1 [double_t] (by decide)⟩

/-- C27 (counterexample): on `type_list<ignore_t, int>` the call
`apply_range(index<0>, index<2>, func<std::add_const>)` returns `<const int>`, while
`apply(func<std::add_const>)` returns `<const ignore_t, const int>`. -/
theorem C27_apply_range_full_differs :
    [detail.ignore_t, int_t] ≠ []
    ∧ apply_range [detail.ignore_t, int_t] 0 (size [detail.ignore_t, int_t]) add_const
        = some [add_const int_t]
    ∧ apply [detail.ignore_t, int_t] add_const = [add_const detail.ignore_t, add_const int_t]
    ∧ apply_range [detail.ignore_t, int_t] 0 (size [detail.ignore_t, int_t]) add_const
        ≠ some (apply [detail.ignore_t, int_t] add_const) := by
  decide

/-- C27 (amended): for every non-empty list `S` that fits `size_t`,
`filter_range(index<0>, index<size()>, P)` equals `filter(P)`, and for every
`I < size()`, `apply(index<I>, F)` equals `apply_range(index<I>, index<I + 1>, F)`;
`apply_range(index<0>, index<size()>, F)` equals `apply(F)` without its elements that are
a cv/ref-qualified `detail::ignore_t`, and equals `apply(F)` when `F` maps no element of
`S` to one. -/
theorem C27_full_range (S : type_list_t) (F : Descriptor → Descriptor)
    (P : Descriptor → Bool) (hS : S.length < SIZE_MOD) (hne : S ≠ []) :
    apply_range S 0 (size S) F
      = some ((apply S F).filter (fun U => !detail.is_ignore U))
    ∧ ((∀ U ∈ S, detail.is_ignore (F U) = false) →
        apply_range S 0 (size S) F = some (apply S F))
    ∧ filter_range S 0 (size S) P = some (filter S P)
    ∧ (∀ I, I < size S → apply_index S I F = apply_range S I (I + 1) F) := by
  have hpos : 0 < S.length := List.length_pos.2 hne
  have h1 : apply_range S 0 (size S) F
      = some ((apply S F).filter (fun U => !detail.is_ignore U)) := by
    unfold size
    rw [apply_range_eq S 0 S.length F hS hpos (Nat.le_refl _), apply_eq_map]
    simp
  refine ⟨h1, ?_, ?_, ?_⟩
  · intro hF
    rw [h1, filter_not_ignore_of_forall]
    intro U hU
    rw [apply_eq_map] at hU
    obtain ⟨V, hV, rfl⟩ := List.mem_map.1 hU
    exact hF V hV
  · unfold size
    rw [filter_range_eq S 0 S.length P hS hpos (Nat.le_refl _), filter_eq_filter]
    simp only [List.take_zero, List.take_length, List.drop_zero, List.drop_length,
      List.nil_append, List.append_nil, List.filter_filter]
    congr 2
    funext U
    exact Bool.and_comm _ _
  · intro I hI
    unfold size at hI
    unfold apply_index apply_range
    rw [if_pos ((index_in_range_iff S I).2 hI),
      if_pos (range_assert_of_lt S I (I + 1) hS (by omega) (by omega)),
      if_neg (by omega), apply_index_t_eq_apply_range_t]

/-- Witness of C27 (amended) on `type_list<int, const double, float>` with
`std::add_const` and `std::is_const`. -/
theorem C27_full_range_witness :
    [int_t, add_const double_t, float_t].length < SIZE_MOD
    ∧ [int_t, add_const double_t, float_t] ≠ []
    ∧ (∀ U ∈ [int_t, add_const double_t, float_t], detail.is_ignore (add_const U) = false)
    ∧ apply_range [int_t, add_const double_t, float_t] 0
          (size [int_t, add_const double_t, float_t]) add_const
        = some (apply [int_t, add_const double_t, float_t] add_const)
    ∧ filter_range [int_t, add_const double_t, float_t] 0
          (size [int_t, add_const double_t, float_t]) is_const
        = some (filter [int_t, add_const double_t, float_t] is_const)
    ∧ (1 : Nat) < size [int_t, add_const double_t, float_t]
    ∧ apply_index [int_t, add_const double_t, float_t] 1 add_const
        = apply_range [int_t, add_const double_t, float_t] 1 (1 + 1) add_const :=
  ⟨by decide, by decide, by decide,
    (C27_full_range [int_t, add_const double_t, float_t] add_const is_const
      (by decide) (by decide)).2.1 (by decide),
    (C27_full_range [int_t, add_const double_t, float_t] add_const is_const
      (by decide) (by decide)).2.2.1,
    by decide,
    (C27_full_range [int_t, add_const double_t, float_t] add_const is_const
      (by decide) (by decide)).2.2.2 1 (by decide)⟩

/-- C28 (counterexample): on `type_list<ignore_t, int>` and `int`,
`remove(tag<int>).size() + count_of(tag<int>)` is `0 + 1`, not `size() == 2`, and
`count_of(tag<ignore_t>)` drops from 1 to 0 although `ignore_t` differs from `int`. -/
theorem C28_remove_count_sentinel :
    size (remove [detail.ignore_t, int_t] int_t) + count_of [detail.ignore_t, int_t] int_t
        ≠ size [detail.ignore_t, int_t]
    ∧ detail.ignore_t ≠ int_t
    ∧ count_of (remove [detail.ignore_t, int_t] int_t) detail.ignore_t
        ≠ count_of [detail.ignore_t, int_t] detail.ignore_t := by
  decide

/-- C28 (amended): `S.remove(tag<T>).size()` plus `S.count_of(tag<T>)` plus the number of
elements of `S` that differ from `T` and are a cv/ref-qualified `detail::ignore_t` is
`S.size()`, and for every `U` that differs from `T` and is not a cv/ref-qualified
`detail::ignore_t`, `S.remove(tag<T>).count_of(tag<U>) == S.count_of(tag<U>)`.  When no
element of `S` is a cv/ref-qualified `detail::ignore_t`,
`S.remove(tag<T>).size() + S.count_of(tag<T>) == S.size()` and the counts agree for
every `U` different from `T`. -/
theorem C28_remove_count (S : type_list_t) (T : Descriptor) :
    size (remove S T) + count_of S T
        + S.countP (fun U => decide (U ≠ T) && detail.is_ignore U) = size S
    ∧ (∀ U, U ≠ T → detail.is_ignore U = false →
        count_of (remove S T) U = count_of S U)
    ∧ ((∀ U ∈ S, detail.is_ignore U = false) →
        size (remove S T) + count_of S T = size S
        ∧ ∀ U, U ≠ T → count_of (remove S T) U = count_of S U) := by
  have hcount : ∀ U, U ≠ T → detail.is_ignore U = false →
      count_of (remove S T) U = count_of S U := by
    intro U hU hI
    unfold count_of
    rw [type_list_count_of_v_eq, type_list_count_of_v_eq, remove_eq_filter]
    exact List.count_filter (by simp [hU, hI])
  have hsize : size (remove S T) + count_of S T
      + S.countP (fun U => decide (U ≠ T) && detail.is_ignore U) = size S := by
    unfold size count_of
    rw [type_list_count_of_v_eq, remove_eq_filter]
    exact remove_size_identity S T
  refine ⟨hsize, hcount, ?_⟩
  intro hfree
  refine ⟨?_, ?_⟩
  · have hz : S.countP (fun U => decide (U ≠ T) && detail.is_ignore U) = 0 := by
      rw [List.countP_eq_zero]
      intro U hU
      simp [hfree U hU]
    rw [hz] at hsize
    exact hsize
  · intro U hU
    cases hI : detail.is_ignore U with
    | false => exact hcount U hU hI
    | true =>
      have hUS : U ∉ S := fun hmem => by
        have := hfree U hmem
        rw [hI] at this
        exact absurd this (by simp)
      have hUR : U ∉ remove S T := fun hmem => by
        rw [remove_eq_filter] at hmem
        exact hUS (List.mem_of_mem_filter hmem)
      unfold count_of
      rw [type_list_count_of_v_eq, type_list_count_of_v_eq, List.count_eq_zero.2 hUS,
        List.count_eq_zero.2 hUR]

/-- Witness of C28 (amended) on `type_list<int, int, double>`, which holds no sentinel,
with `int` removed and `double` counted. -/
theorem C28_remove_count_witness :
    (∀ U ∈ [int_t, int_t, double_t], detail.is_ignore U = false)
    ∧ size (remove [int_t, int_t, double_t] int_t) + count_of [int_t, int_t, double_t] int_t
        = size [int_t, int_t, double_t]
    ∧ double_t ≠ int_t
    ∧ count_of (remove [int_t, int_t, double_t] int_t) double_t
        = count_of [int_t, int_t, double_t] double_t :=
  ⟨by decide, ((C28_remove_count [int_t, int_t, double_t] int_t).2.2 (by decide)).1,
    by decide,
    ((C28_remove_count [int_t, int_t, double_t] int_t).2.2 (by decide)).2 double_t
      (by decide)⟩

end kt
